import Mathlib

/-!
Shallow embedding of the yuka ray-casting core (`src/math/Ray.js` and the
`Obstacle.intersectRay` pipeline) together with proofs about the claims of
the specification.

Modelling conventions:
* JavaScript numbers are modelled by exact rationals (`ℚ`) wherever the code
  only adds, subtracts, multiplies, divides and compares; the square root in
  `intersectBoundingSphere` forces that one routine to be modelled over `ℝ`
  with `Real.sqrt`.
* `intersectAABB` divides by direction components that may be zero, so its
  arithmetic is modelled by `FP`, a four-point extension of `ℚ` with the two
  signed infinities and NaN, mirroring the IEEE special-value algebra that
  the JavaScript code relies on (`1/0 = Infinity`, `0 * Infinity = NaN`,
  every comparison against NaN false).  Rounding is immaterial to the claims
  and is not modelled.
* `Vector3`, `Matrix4`, `MeshGeometry` and the AABB value type are not part
  of the provided sources; they are modelled from the specification where
  the definitions say so.
-/

/-- Modelled from the spec: 3D vector of the external `Vector3` primitive,
generic in the scalar type so that the same embedding serves `ℚ` and `ℝ`. -/
structure Vec3 (α : Type) where
  x : α
  y : α
  z : α
deriving DecidableEq

namespace Vec3

/-- Modelled from the spec: componentwise vector subtraction (`subVectors`). -/
def sub {α : Type} [LinearOrderedField α] (u v : Vec3 α) : Vec3 α :=
  ⟨u.x - v.x, u.y - v.y, u.z - v.z⟩

/-- Modelled from the spec: componentwise vector addition (`add`). -/
def add {α : Type} [LinearOrderedField α] (u v : Vec3 α) : Vec3 α :=
  ⟨u.x + v.x, u.y + v.y, u.z + v.z⟩

/-- Modelled from the spec: scalar multiplication (`multiplyScalar`). -/
def smul {α : Type} [LinearOrderedField α] (u : Vec3 α) (s : α) : Vec3 α :=
  ⟨u.x * s, u.y * s, u.z * s⟩

/-- Modelled from the spec: dot product (`dot`). -/
def dot {α : Type} [LinearOrderedField α] (u v : Vec3 α) : α :=
  u.x * v.x + u.y * v.y + u.z * v.z

/-- Modelled from the spec: cross product (`crossVectors`/`cross`). -/
def cross {α : Type} [LinearOrderedField α] (u v : Vec3 α) : Vec3 α :=
  ⟨u.y * v.z - u.z * v.y, u.z * v.x - u.x * v.z, u.x * v.y - u.y * v.x⟩

end Vec3

/-- Ray of `src/math/Ray.js`: an origin and a direction. -/
structure Ray (α : Type) where
  origin : Vec3 α
  direction : Vec3 α

/-- Transcription of `Ray.at`: `result.copy(direction).multiplyScalar(t).add(origin)`,
that is `direction * t + origin`. -/
def Ray.at {α : Type} [LinearOrderedField α] (r : Ray α) (t : α) : Vec3 α :=
  (r.direction.smul t).add r.origin

/-- Triangle value as consumed by `Ray.intersectTriangle`: three vertices. -/
structure Tri (α : Type) where
  a : Vec3 α
  b : Vec3 α
  c : Vec3 α
deriving DecidableEq

/-- Transcription of `Ray.intersectTriangle` from `src/math/Ray.js` over exact
rationals.  The module-level scratch vectors are threaded away (a separate
stateful transcription below models them for the determinism claim):
`edge1 = b - a`, `edge2 = c - a`, `normal = edge1 × edge2`, the sign/DdN
normalisation block, the two barycentric numerators (note the source
overwrites `edge2` with `v1 × edge2` and `edge1` with `edge1 × v1` at the
points where they are read), the sum test, the `QdN` test, and the final
`at(QdN / DdN)`. -/
def intersectTriangle (r : Ray ℚ) (tri : Tri ℚ) (backfaceCulling : Bool) :
    Option (Vec3 ℚ) :=
  let edge1 := tri.b.sub tri.a
  let edge2 := tri.c.sub tri.a
  let normal := edge1.cross edge2
  let DdN0 := r.direction.dot normal
  let signed : Option (ℚ × ℚ) :=
    if 0 < DdN0 then
      if backfaceCulling then none else some (1, DdN0)
    else if DdN0 < 0 then some (-1, -DdN0)
    else none
  match signed with
  | none => none
  | some sd =>
    let sign := sd.1
    let DdN := sd.2
    let v1 := r.origin.sub tri.a
    let DdQxE2 := sign * r.direction.dot (v1.cross edge2)
    if DdQxE2 < 0 then none
    else
      let DdE1xQ := sign * r.direction.dot (edge1.cross v1)
      if DdE1xQ < 0 then none
      else if DdQxE2 + DdE1xQ > DdN then none
      else
        let QdN := -sign * v1.dot normal
        if QdN < 0 then none
        else some (r.at (QdN / DdN))

/-- Triangle normal `(b-a) × (c-a)` as computed by the source. -/
def triNormal (tri : Tri ℚ) : Vec3 ℚ :=
  (tri.b.sub tri.a).cross (tri.c.sub tri.a)

/-- The raw denominator `DdN = direction · normal` before sign normalisation. -/
def triDdN (r : Ray ℚ) (tri : Tri ℚ) : ℚ :=
  r.direction.dot (triNormal tri)

/-- The sign chosen by the source once `DdN ≠ 0`: `1` for `DdN > 0`, `-1` for
`DdN < 0`. -/
def triSign (r : Ray ℚ) (tri : Tri ℚ) : ℚ :=
  if 0 < triDdN r tri then 1 else -1

/-- First barycentric numerator `sign * direction · (v1 × edge2)`. -/
def triB1 (r : Ray ℚ) (tri : Tri ℚ) : ℚ :=
  triSign r tri * r.direction.dot ((r.origin.sub tri.a).cross (tri.c.sub tri.a))

/-- Second barycentric numerator `sign * direction · (edge1 × v1)`. -/
def triB2 (r : Ray ℚ) (tri : Tri ℚ) : ℚ :=
  triSign r tri * r.direction.dot ((tri.b.sub tri.a).cross (r.origin.sub tri.a))

/-- The ray-parameter numerator `QdN = -sign * v1 · normal`. -/
def triQdN (r : Ray ℚ) (tri : Tri ℚ) : ℚ :=
  -triSign r tri * (r.origin.sub tri.a).dot (triNormal tri)

/-- The rejection condition of the non-degenerate path, exactly as the claim
states it: strict comparisons, equality of the sum with `DdN` accepting. -/
def triReject (r : Ray ℚ) (tri : Tri ℚ) : Prop :=
  triB1 r tri < 0 ∨ triB2 r tri < 0 ∨
    triB1 r tri + triB2 r tri > |triDdN r tri| ∨ triQdN r tri < 0

instance (r : Ray ℚ) (tri : Tri ℚ) : Decidable (triReject r tri) := by
  unfold triReject
  infer_instance

/-- IEEE-style value fragment used by `intersectAABB`: a finite rational, the
two signed infinities, or NaN.  Only the operations actually performed by the
source are provided.  JavaScript's negative zero is not modelled (the single
rational zero divides to `+Infinity`, as JavaScript's literal `0` does). -/
inductive FP where
  | fin : ℚ → FP
  | pinf : FP
  | ninf : FP
  | nan : FP
deriving DecidableEq

namespace FP

/-- IEEE strict greater-than: false whenever NaN is involved, `+∞ > +∞` false. -/
def gt : FP → FP → Bool
  | fin a, fin b => decide (b < a)
  | fin _, ninf => true
  | pinf, fin _ => true
  | pinf, ninf => true
  | _, _ => false

/-- IEEE strict less-than, defined as the mirrored `gt` exactly like the
source's `<` comparisons behave. -/
def lt (a b : FP) : Bool := gt b a

/-- IEEE non-strict `>= 0` test: false on NaN, true on `+∞`. -/
def ge0 : FP → Bool
  | fin a => decide (0 ≤ a)
  | pinf => true
  | _ => false

/-- NaN test, the JavaScript `x !== x` idiom. -/
def isNan : FP → Bool
  | nan => true
  | _ => false

/-- Product of a finite rational with an `FP` value, following IEEE:
`0 * ±∞ = NaN`, sign-propagating otherwise.  Finite products are exact
(rounding is not modelled). -/
def mulQ (q : ℚ) : FP → FP
  | fin r => fin (q * r)
  | pinf => if 0 < q then pinf else if q < 0 then ninf else nan
  | ninf => if 0 < q then ninf else if q < 0 then pinf else nan
  | nan => nan

/-- Sum of an `FP` value with a finite rational: infinities and NaN absorb. -/
def addQ : FP → ℚ → FP
  | fin r, q => fin (r + q)
  | pinf, _ => pinf
  | ninf, _ => ninf
  | nan, _ => nan

end FP

/-- Axis-aligned bounding box over exact rationals. -/
structure AABBQ where
  min : Vec3 ℚ
  max : Vec3 ℚ
deriving DecidableEq

/-- The reciprocal `1 / d` of a direction component as JavaScript computes it:
finite for `d ≠ 0` and `+Infinity` for `d = 0`. -/
def invdir (d : ℚ) : FP :=
  if d = 0 then FP.pinf else FP.fin d⁻¹

/-- Per-axis slab bounds of `Ray.intersectAABB`: the `if (invdir >= 0)` block
computing `(tmin, tmax)` for one axis from direction component `d`, origin
component `o` and box bounds `mn`/`mx`. -/
def slabAxis (d o mn mx : ℚ) : FP × FP :=
  let inv := invdir d
  if inv.ge0 then (FP.mulQ (mn - o) inv, FP.mulQ (mx - o) inv)
  else (FP.mulQ (mx - o) inv, FP.mulQ (mn - o) inv)

/-- The source's pairwise interval rejection test
`( tmin > other_tmax ) || ( other_tmin > tmax )`. -/
def testReject (p q : FP × FP) : Bool :=
  FP.gt p.1 q.2 || FP.gt q.1 p.2

/-- The source's lower-bound fold
`if ( tymin > tmin || tmin !== tmin ) tmin = tymin`. -/
def foldMin (tmin tnew : FP) : FP :=
  if FP.gt tnew tmin || FP.isNan tmin then tnew else tmin

/-- The source's upper-bound fold
`if ( tymax < tmax || tmax !== tmax ) tmax = tymax`. -/
def foldMax (tmax tnew : FP) : FP :=
  if FP.lt tnew tmax || FP.isNan tmax then tnew else tmax

/-- Evaluation of `Ray.at` at an `FP` parameter, as happens on the accepting
path of `intersectAABB`: each component is `direction * t + origin` in the
IEEE special-value algebra. -/
def atFP (r : Ray ℚ) (t : FP) : Vec3 FP :=
  ⟨(FP.mulQ r.direction.x t).addQ r.origin.x,
   (FP.mulQ r.direction.y t).addQ r.origin.y,
   (FP.mulQ r.direction.z t).addQ r.origin.z⟩

/-- Transcription of `Ray.intersectAABB` from `src/math/Ray.js`: three per-axis
slab computations, two pairwise rejection tests, the NaN-aware folds, the
`tmax < 0` rejection and the final `at(tmin >= 0 ? tmin : tmax)`. -/
def intersectAABB (r : Ray ℚ) (box : AABBQ) : Option (Vec3 FP) :=
  let px := slabAxis r.direction.x r.origin.x box.min.x box.max.x
  let py := slabAxis r.direction.y r.origin.y box.min.y box.max.y
  if testReject px py then none
  else
    let tmin1 := foldMin px.1 py.1
    let tmax1 := foldMax px.2 py.2
    let pz := slabAxis r.direction.z r.origin.z box.min.z box.max.z
    if testReject (tmin1, tmax1) pz then none
    else
      let tmin := foldMin tmin1 pz.1
      let tmax := foldMax tmax1 pz.2
      if FP.lt tmax (FP.fin 0) then none
      else some (atFP r (if tmin.ge0 then tmin else tmax))

/-- The x-axis slab pair of `intersectAABB` on the given ray and box. -/
def aabbSlabX (r : Ray ℚ) (box : AABBQ) : FP × FP :=
  slabAxis r.direction.x r.origin.x box.min.x box.max.x

/-- The y-axis slab pair of `intersectAABB` on the given ray and box. -/
def aabbSlabY (r : Ray ℚ) (box : AABBQ) : FP × FP :=
  slabAxis r.direction.y r.origin.y box.min.y box.max.y

/-- The z-axis slab pair of `intersectAABB` on the given ray and box. -/
def aabbSlabZ (r : Ray ℚ) (box : AABBQ) : FP × FP :=
  slabAxis r.direction.z r.origin.z box.min.z box.max.z

/-- The x/y folded interval of `intersectAABB`. -/
def aabbFoldXY (r : Ray ℚ) (box : AABBQ) : FP × FP :=
  (foldMin (aabbSlabX r box).1 (aabbSlabY r box).1,
   foldMax (aabbSlabX r box).2 (aabbSlabY r box).2)

/-- The fully folded lower bound `tmin` of `intersectAABB`. -/
def aabbTmin (r : Ray ℚ) (box : AABBQ) : FP :=
  foldMin (aabbFoldXY r box).1 (aabbSlabZ r box).1

/-- The fully folded upper bound `tmax` of `intersectAABB`. -/
def aabbTmax (r : Ray ℚ) (box : AABBQ) : FP :=
  foldMax (aabbFoldXY r box).2 (aabbSlabZ r box).2

/-- Either of the two pairwise interval rejection tests of `intersectAABB`
fires. -/
def aabbPairFail (r : Ray ℚ) (box : AABBQ) : Bool :=
  testReject (aabbSlabX r box) (aabbSlabY r box) ||
    testReject (aabbFoldXY r box) (aabbSlabZ r box)

/-- Bounding sphere over the reals (the square root of
`intersectBoundingSphere` forces the real field here). -/
structure BoundingSphere where
  center : Vec3 ℝ
  radius : ℝ

/-- Transcription of `Ray.intersectBoundingSphere` from `src/math/Ray.js`:
`v1 = center - origin`, `tca = v1 · direction`, `d2 = v1 · v1 - tca²`,
reject on `d2 > radius²`, roots `t0 = tca - thc`, `t1 = tca + thc` with
`thc = sqrt(radius² - d2)`, reject when both roots are negative, exit point
at `t1` when `t0 < 0`, entry point at `t0` otherwise. -/
noncomputable def intersectBoundingSphere (r : Ray ℝ) (s : BoundingSphere) :
    Option (Vec3 ℝ) :=
  let v := s.center.sub r.origin
  let tca := v.dot r.direction
  let d2 := v.dot v - tca * tca
  let radius2 := s.radius * s.radius
  if d2 > radius2 then none
  else
    let thc := Real.sqrt (radius2 - d2)
    let t0 := tca - thc
    let t1 := tca + thc
    if t0 < 0 ∧ t1 < 0 then none
    else if t0 < 0 then some (r.at t1)
    else some (r.at t0)

/-- The intermediate `tca` of `intersectBoundingSphere`. -/
noncomputable def sphTca (r : Ray ℝ) (s : BoundingSphere) : ℝ :=
  (s.center.sub r.origin).dot r.direction

/-- The intermediate squared distance `d2` of `intersectBoundingSphere`. -/
noncomputable def sphD2 (r : Ray ℝ) (s : BoundingSphere) : ℝ :=
  (s.center.sub r.origin).dot (s.center.sub r.origin) - sphTca r s * sphTca r s

/-- The entry root `t0 = tca - thc` of `intersectBoundingSphere`. -/
noncomputable def sphT0 (r : Ray ℝ) (s : BoundingSphere) : ℝ :=
  sphTca r s - Real.sqrt (s.radius * s.radius - sphD2 r s)

/-- The exit root `t1 = tca + thc` of `intersectBoundingSphere`. -/
noncomputable def sphT1 (r : Ray ℝ) (s : BoundingSphere) : ℝ :=
  sphTca r s + Real.sqrt (s.radius * s.radius - sphD2 r s)

/-- Modelled from the spec: the affine part of the external `Matrix4`
(`Matrix4.js` is not among the provided sources).  Only the point transform
is consumed by `Obstacle.intersectRay`, so the projective bottom row is not
modelled. -/
structure Matrix4 where
  n11 : ℚ
  n12 : ℚ
  n13 : ℚ
  n14 : ℚ
  n21 : ℚ
  n22 : ℚ
  n23 : ℚ
  n24 : ℚ
  n31 : ℚ
  n32 : ℚ
  n33 : ℚ
  n34 : ℚ
deriving DecidableEq

/-- Modelled from the spec: `Vector3.applyMatrix4`, the point transform
(rotation/scale columns plus translation column). -/
def applyPoint (m : Matrix4) (v : Vec3 ℚ) : Vec3 ℚ :=
  ⟨m.n11 * v.x + m.n12 * v.y + m.n13 * v.z + m.n14,
   m.n21 * v.x + m.n22 * v.y + m.n23 * v.z + m.n24,
   m.n31 * v.x + m.n32 * v.y + m.n33 * v.z + m.n34⟩

/-- The identity world transform. -/
def idMatrix4 : Matrix4 :=
  ⟨1, 0, 0, 0, 0, 1, 0, 0, 0, 0, 1, 0⟩

/-- Componentwise minimum of two vectors. -/
def vmin (u v : Vec3 ℚ) : Vec3 ℚ :=
  ⟨min u.x v.x, min u.y v.y, min u.z v.z⟩

/-- Componentwise maximum of two vectors. -/
def vmax (u v : Vec3 ℚ) : Vec3 ℚ :=
  ⟨max u.x v.x, max u.y v.y, max u.z v.z⟩

/-- Modelled from the spec: `AABB.applyMatrix4`, which must recompute a tight
axis-aligned extent enclosing the transformed box — realised by transforming
the eight corners and taking componentwise bounds (exact for the affine
transform modelled here). -/
def aabbApplyMatrix4 (b : AABBQ) (m : Matrix4) : AABBQ :=
  let c0 := applyPoint m ⟨b.min.x, b.min.y, b.min.z⟩
  let c1 := applyPoint m ⟨b.min.x, b.min.y, b.max.z⟩
  let c2 := applyPoint m ⟨b.min.x, b.max.y, b.min.z⟩
  let c3 := applyPoint m ⟨b.min.x, b.max.y, b.max.z⟩
  let c4 := applyPoint m ⟨b.max.x, b.min.y, b.min.z⟩
  let c5 := applyPoint m ⟨b.max.x, b.min.y, b.max.z⟩
  let c6 := applyPoint m ⟨b.max.x, b.max.y, b.min.z⟩
  let c7 := applyPoint m ⟨b.max.x, b.max.y, b.max.z⟩
  ⟨vmin c0 (vmin c1 (vmin c2 (vmin c3 (vmin c4 (vmin c5 (vmin c6 c7)))))),
   vmax c0 (vmax c1 (vmax c2 (vmax c3 (vmax c4 (vmax c5 (vmax c6 c7))))))⟩

/-- Modelled from the spec: the external `MeshGeometry` record — flat vertex
buffer (stride 3), optional index buffer (stride 3 per triangle, `none`
being the documented signal for non-indexed layout), precomputed local-space
bounding box and the backface-culling flag. -/
structure MeshGeometry where
  vertices : List ℚ
  indices : Option (List ℕ)
  aabb : AABBQ
  backfaceCulling : Bool

/-- Obstacle of `src/math/Ray.js` (second part of the file): a mesh geometry
plus the world transform owned by the surrounding game entity. -/
structure Obstacle where
  geometry : MeshGeometry
  worldMatrix : Matrix4

/-- Stride-3 vertex lookup `(vertices[3i], vertices[3i+1], vertices[3i+2])`.
An out-of-range access yields `undefined` in JavaScript and hence a NaN
vertex coordinate, which makes `intersectTriangle` return null via its
`DdN` comparisons; the model signals the same situation with `none` and the
scan below skips such triangles exactly as the source does. -/
def getVertex (vs : List ℚ) (i : ℕ) : Option (Vec3 ℚ) :=
  match vs[3 * i]?, vs[3 * i + 1]?, vs[3 * i + 2]? with
  | some a, some b, some c => some ⟨a, b, c⟩
  | _, _, _ => none

/-- Image of a triangle under the world transform, as the source applies
`applyMatrix4` to the three vertices before the triangle test. -/
def mapTri (m : Matrix4) (t : Tri ℚ) : Tri ℚ :=
  ⟨applyPoint m t.a, applyPoint m t.b, applyPoint m t.c⟩

/-- The non-indexed narrow-phase loop of `Obstacle.intersectRay`: consume the
vertex buffer nine floats at a time, transform the triangle into world space
and return on the first triangle hit.  A trailing partial chunk produces NaN
coordinates in JavaScript and never hits; the model ends the scan there with
the same null outcome. -/
def scanSoup (r : Ray ℚ) (m : Matrix4) (bfc : Bool) : List ℚ → Option (Vec3 ℚ)
  | x0 :: x1 :: x2 :: x3 :: x4 :: x5 :: x6 :: x7 :: x8 :: rest =>
    let ta := applyPoint m ⟨x0, x1, x2⟩
    let tb := applyPoint m ⟨x3, x4, x5⟩
    let tc := applyPoint m ⟨x6, x7, x8⟩
    match intersectTriangle r ⟨ta, tb, tc⟩ bfc with
    | some p => some p
    | none => scanSoup r m bfc rest
  | _ => none

/-- The indexed narrow-phase loop of `Obstacle.intersectRay`: consume the
index buffer three indices at a time, look each vertex up at stride 3,
transform and test.  Out-of-range lookups give NaN triangles in JavaScript,
which never intersect; the model skips them identically. -/
def scanIndexed (r : Ray ℚ) (m : Matrix4) (bfc : Bool) (vs : List ℚ) :
    List ℕ → Option (Vec3 ℚ)
  | ia :: ib :: ic :: rest =>
    match getVertex vs ia, getVertex vs ib, getVertex vs ic with
    | some va, some vb, some vc =>
      match intersectTriangle r (mapTri m ⟨va, vb, vc⟩) bfc with
      | some p => some p
      | none => scanIndexed r m bfc vs rest
    | _, _, _ => scanIndexed r m bfc vs rest
  | _ => none

/-- The world-space bounding box `aabb.copy(geometry.aabb).applyMatrix4(worldMatrix)`
computed by `Obstacle.intersectRay`. -/
def worldAABB (o : Obstacle) : AABBQ :=
  aabbApplyMatrix4 o.geometry.aabb o.worldMatrix

/-- Transcription of `Obstacle.intersectRay`: broad-phase test of the
world-space bounding box, then the indexed or non-indexed triangle scan,
null when the scan is exhausted. -/
def Obstacle.intersectRay (o : Obstacle) (r : Ray ℚ) : Option (Vec3 ℚ) :=
  match intersectAABB r (worldAABB o) with
  | none => none
  | some _ =>
    match o.geometry.indices with
    | none => scanSoup r o.worldMatrix o.geometry.backfaceCulling o.geometry.vertices
    | some idx =>
      scanIndexed r o.worldMatrix o.geometry.backfaceCulling o.geometry.vertices idx

/-- Modelled from the spec (claim-side decoding): the triangles of a
non-indexed vertex buffer, read as consecutive 9-float triples, in buffer
order.  A decodable chunk yields `some`, a trailing partial chunk nothing. -/
def soupTris : List ℚ → List (Option (Tri ℚ))
  | x0 :: x1 :: x2 :: x3 :: x4 :: x5 :: x6 :: x7 :: x8 :: rest =>
    some ⟨⟨x0, x1, x2⟩, ⟨x3, x4, x5⟩, ⟨x6, x7, x8⟩⟩ :: soupTris rest
  | _ => []

/-- Modelled from the spec (claim-side decoding): the triangles of an indexed
geometry, consuming indices three at a time and looking vertices up at
stride-3 offsets, in index-buffer order; `none` marks an undecodable entry. -/
def indexedTris (vs : List ℚ) : List ℕ → List (Option (Tri ℚ))
  | ia :: ib :: ic :: rest =>
    (match getVertex vs ia, getVertex vs ib, getVertex vs ic with
     | some a, some b, some c => some (⟨a, b, c⟩ : Tri ℚ)
     | _, _, _ => none) :: indexedTris vs rest
  | _ => []

/-- Modelled from the spec (claim-side decoding): the triangle sequence of a
geometry — indexed exactly when `indices` is present, non-indexed
consecutive triples otherwise. -/
def trianglesOf (g : MeshGeometry) : List (Option (Tri ℚ)) :=
  match g.indices with
  | none => soupTris g.vertices
  | some idx => indexedTris g.vertices idx

/-- First-hit scan over a decoded triangle sequence: transform each decodable
triangle by the world matrix, test it, and return the first hit. -/
def firstTriHit (r : Ray ℚ) (m : Matrix4) (bfc : Bool) :
    List (Option (Tri ℚ)) → Option (Vec3 ℚ)
  | [] => none
  | none :: rest => firstTriHit r m bfc rest
  | some t :: rest =>
    match intersectTriangle r (mapTri m t) bfc with
    | some p => some p
    | none => firstTriHit r m bfc rest

/-- The module-level scratch vectors `v1`, `edge1`, `edge2`, `normal` of
`src/math/Ray.js`, shared and mutated across calls. -/
structure Scratch where
  v1 : Vec3 ℚ
  edge1 : Vec3 ℚ
  edge2 : Vec3 ℚ
  normal : Vec3 ℚ

/-- Stateful transcription of `Ray.intersectTriangle` that threads the
module-level scratch vectors explicitly: `edge1`, `edge2` and `normal` are
overwritten on entry, `v1` on the non-degenerate path, `edge2` again by
`crossVectors(v1, edge2)` and `edge1` by `cross(v1)`; every early return
leaves the scratch storage in whatever intermediate state the mutations
reached, exactly as the JavaScript module globals do. -/
def intersectTriangleS (s : Scratch) (r : Ray ℚ) (tri : Tri ℚ)
    (backfaceCulling : Bool) : Scratch × Option (Vec3 ℚ) :=
  let edge1 := tri.b.sub tri.a
  let edge2 := tri.c.sub tri.a
  let normal := edge1.cross edge2
  let s1 : Scratch := ⟨s.v1, edge1, edge2, normal⟩
  let DdN0 := r.direction.dot normal
  let signed : Option (ℚ × ℚ) :=
    if 0 < DdN0 then
      if backfaceCulling then none else some (1, DdN0)
    else if DdN0 < 0 then some (-1, -DdN0)
    else none
  match signed with
  | none => (s1, none)
  | some sd =>
    let sign := sd.1
    let DdN := sd.2
    let v1 := r.origin.sub tri.a
    let e2x := v1.cross edge2
    let s2 : Scratch := ⟨v1, edge1, e2x, normal⟩
    let DdQxE2 := sign * r.direction.dot e2x
    if DdQxE2 < 0 then (s2, none)
    else
      let e1x := edge1.cross v1
      let s3 : Scratch := ⟨v1, e1x, e2x, normal⟩
      let DdE1xQ := sign * r.direction.dot e1x
      if DdE1xQ < 0 then (s3, none)
      else if DdQxE2 + DdE1xQ > DdN then (s3, none)
      else
        let QdN := -sign * v1.dot normal
        if QdN < 0 then (s3, none)
        else (s3, some (r.at (QdN / DdN)))

/-- Transcription of `Ray.intersectBoundingSphere` threading the
caller-supplied result vector: the vector is written only by the final
`at` calls, so every rejecting path hands it back untouched. -/
noncomputable def intersectBoundingSphereW (r : Ray ℝ) (s : BoundingSphere)
    (res : Vec3 ℝ) : Option (Vec3 ℝ) × Vec3 ℝ :=
  let v := s.center.sub r.origin
  let tca := v.dot r.direction
  let d2 := v.dot v - tca * tca
  let radius2 := s.radius * s.radius
  if d2 > radius2 then (none, res)
  else
    let thc := Real.sqrt (radius2 - d2)
    let t0 := tca - thc
    let t1 := tca + thc
    if t0 < 0 ∧ t1 < 0 then (none, res)
    else if t0 < 0 then (some (r.at t1), r.at t1)
    else (some (r.at t0), r.at t0)

/-- Transcription of `Ray.intersectAABB` threading the caller-supplied result
vector; only the final `at` call writes it. -/
def intersectAABBW (r : Ray ℚ) (box : AABBQ) (res : Vec3 FP) :
    Option (Vec3 FP) × Vec3 FP :=
  let px := slabAxis r.direction.x r.origin.x box.min.x box.max.x
  let py := slabAxis r.direction.y r.origin.y box.min.y box.max.y
  if testReject px py then (none, res)
  else
    let tmin1 := foldMin px.1 py.1
    let tmax1 := foldMax px.2 py.2
    let pz := slabAxis r.direction.z r.origin.z box.min.z box.max.z
    if testReject (tmin1, tmax1) pz then (none, res)
    else
      let tmin := foldMin tmin1 pz.1
      let tmax := foldMax tmax1 pz.2
      if FP.lt tmax (FP.fin 0) then (none, res)
      else
        let p := atFP r (if tmin.ge0 then tmin else tmax)
        (some p, p)

/-- Transcription of `Ray.intersectTriangle` threading the caller-supplied
result vector; only the final `at` call writes it. -/
def intersectTriangleW (r : Ray ℚ) (tri : Tri ℚ) (backfaceCulling : Bool)
    (res : Vec3 ℚ) : Option (Vec3 ℚ) × Vec3 ℚ :=
  let edge1 := tri.b.sub tri.a
  let edge2 := tri.c.sub tri.a
  let normal := edge1.cross edge2
  let DdN0 := r.direction.dot normal
  let signed : Option (ℚ × ℚ) :=
    if 0 < DdN0 then
      if backfaceCulling then none else some (1, DdN0)
    else if DdN0 < 0 then some (-1, -DdN0)
    else none
  match signed with
  | none => (none, res)
  | some sd =>
    let sign := sd.1
    let DdN := sd.2
    let v1 := r.origin.sub tri.a
    let DdQxE2 := sign * r.direction.dot (v1.cross edge2)
    if DdQxE2 < 0 then (none, res)
    else
      let DdE1xQ := sign * r.direction.dot (edge1.cross v1)
      if DdE1xQ < 0 then (none, res)
      else if DdQxE2 + DdE1xQ > DdN then (none, res)
      else
        let QdN := -sign * v1.dot normal
        if QdN < 0 then (none, res)
        else (some (r.at (QdN / DdN)), r.at (QdN / DdN))

/-- The non-indexed scan of `Obstacle.intersectRay` threading the result
vector through every per-triangle test, as the source passes the same
`result` object to each `intersectTriangle` call. -/
def scanSoupW (r : Ray ℚ) (m : Matrix4) (bfc : Bool) :
    List ℚ → Vec3 ℚ → Option (Vec3 ℚ) × Vec3 ℚ
  | x0 :: x1 :: x2 :: x3 :: x4 :: x5 :: x6 :: x7 :: x8 :: rest, res =>
    let ta := applyPoint m ⟨x0, x1, x2⟩
    let tb := applyPoint m ⟨x3, x4, x5⟩
    let tc := applyPoint m ⟨x6, x7, x8⟩
    match intersectTriangleW r ⟨ta, tb, tc⟩ bfc res with
    | (some p, res1) => (some p, res1)
    | (none, res1) => scanSoupW r m bfc rest res1
  | _, res => (none, res)

/-- The indexed scan of `Obstacle.intersectRay` threading the result vector
through every per-triangle test. -/
def scanIndexedW (r : Ray ℚ) (m : Matrix4) (bfc : Bool) (vs : List ℚ) :
    List ℕ → Vec3 ℚ → Option (Vec3 ℚ) × Vec3 ℚ
  | ia :: ib :: ic :: rest, res =>
    match getVertex vs ia, getVertex vs ib, getVertex vs ic with
    | some va, some vb, some vc =>
      match intersectTriangleW r (mapTri m ⟨va, vb, vc⟩) bfc res with
      | (some p, res1) => (some p, res1)
      | (none, res1) => scanIndexedW r m bfc vs rest res1
    | _, _, _ => scanIndexedW r m bfc vs rest res
  | _, res => (none, res)

/-- Transcription of `Obstacle.intersectRay` threading the caller-supplied
result vector.  The broad-phase `intersectAABB` call writes the module-level
`intersectionPointAABB` scratch vector, never the caller's `result`, so only
the triangle scans touch `res`. -/
def Obstacle.intersectRayW (o : Obstacle) (r : Ray ℚ) (res : Vec3 ℚ) :
    Option (Vec3 ℚ) × Vec3 ℚ :=
  match intersectAABB r (worldAABB o) with
  | none => (none, res)
  | some _ =>
    match o.geometry.indices with
    | none => scanSoupW r o.worldMatrix o.geometry.backfaceCulling o.geometry.vertices res
    | some idx =>
      scanIndexedW r o.worldMatrix o.geometry.backfaceCulling o.geometry.vertices idx res

/-- The spec's end-to-end triangle example, used as concrete witness input:
`a = (-1,0,0)`, `b = (1,0,0)`, `c = (0,1,0)`. -/
def w1tri : Tri ℚ := ⟨⟨-1, 0, 0⟩, ⟨1, 0, 0⟩, ⟨0, 1, 0⟩⟩

/-- The spec's end-to-end triangle-example ray: origin `(0, 0.3, -5)`,
direction `(0, 0, 1)`. -/
def w1ray : Ray ℚ := ⟨⟨0, 3/10, -5⟩, ⟨0, 0, 1⟩⟩

/-- The spec's end-to-end sphere example. -/
def w2sph : BoundingSphere := ⟨⟨0, 0, 0⟩, 1⟩

/-- The spec's end-to-end sphere-example ray. -/
def w2ray : Ray ℝ := ⟨⟨0, 0, -5⟩, ⟨0, 0, 1⟩⟩

/-- The spec's end-to-end box example. -/
def w3box : AABBQ := ⟨⟨-1, -1, -1⟩, ⟨1, 1, 1⟩⟩

/-- The spec's end-to-end box-example ray (note the two zero direction
components). -/
def w3ray : Ray ℚ := ⟨⟨0, 0, -5⟩, ⟨0, 0, 1⟩⟩

/-- Euclidean distance between two points, used to state the metric part of
the `at` contract. -/
noncomputable def dist3 (u v : Vec3 ℝ) : ℝ :=
  Real.sqrt ((u.x - v.x) ^ 2 + (u.y - v.y) ^ 2 + (u.z - v.z) ^ 2)

/-- A ray passing well above the witness sphere. -/
def w10sphRay : Ray ℝ := ⟨⟨0, 5, -5⟩, ⟨0, 0, 1⟩⟩

/-- A box the witness ray misses. -/
def w10box : AABBQ := ⟨⟨5, 5, 5⟩, ⟨6, 6, 6⟩⟩

/-- An obstacle with an out-of-the-way bounding box and a deliberately
malformed vertex buffer, as the spec suggests for the broad-phase test. -/
def w10obs : Obstacle := ⟨⟨[1, 2, 3], none, w10box, false⟩, idMatrix4⟩

/-- A concrete indexed single-triangle obstacle. -/
def w6obs : Obstacle :=
  ⟨⟨[-1, 0, 0, 1, 0, 0, 0, 1, 0], some [0, 1, 2], ⟨⟨-1, -1, -1⟩, ⟨1, 1, 1⟩⟩, false⟩, idMatrix4⟩

/-- Obstacle whose triangle the ray hits but whose stored AABB it misses. -/
def c4xobs : Obstacle :=
  ⟨⟨[-1, 0, 0, 1, 0, 0, 0, 1, 0], none, ⟨⟨100, 100, 100⟩, ⟨101, 101, 101⟩⟩, false⟩, idMatrix4⟩

/-- Two-triangle soup: the first triangle sits at `z = 5`, the second at
`z = 0`; the witness ray starts at `z = -5` looking towards `+z`. -/
def w4obs : Obstacle :=
  ⟨⟨[-1, 0, 5, 1, 0, 5, 0, 1, 5, -1, 0, 0, 1, 0, 0, 0, 1, 0], none,
    ⟨⟨-1, -1, -1⟩, ⟨1, 1, 6⟩⟩, false⟩, idMatrix4⟩

/-- The farther, first-in-order triangle of `w4obs`. -/
def w4far : Tri ℚ := ⟨⟨-1, 0, 5⟩, ⟨1, 0, 5⟩, ⟨0, 1, 5⟩⟩

/-- The closer, second-in-order triangle of `w4obs`. -/
def w4near : Tri ℚ := ⟨⟨-1, 0, 0⟩, ⟨1, 0, 0⟩, ⟨0, 1, 0⟩⟩

/-- Membership of a point in an axis-aligned box, bounds inclusive. -/
def inAABB (box : AABBQ) (p : Vec3 ℚ) : Prop :=
  box.min.x ≤ p.x ∧ p.x ≤ box.max.x ∧
  box.min.y ≤ p.y ∧ p.y ≤ box.max.y ∧
  box.min.z ≤ p.z ∧ p.z ≤ box.max.z

/-- The geometric hit predicate `intersectAABB` is meant to decide: some
point of the ray lies in the box. -/
def hitsAABB (r : Ray ℚ) (box : AABBQ) : Prop :=
  ∃ t : ℚ, 0 ≤ t ∧ inAABB box (r.at t)

/-- A slab pair whose two bounds are finite. -/
def FinPair (p : FP × FP) : Prop :=
  ∃ lo hi : ℚ, p.1 = FP.fin lo ∧ p.2 = FP.fin hi

/-- A slab pair that constrains nothing: lower bound `-∞` or NaN, upper
bound `+∞` or NaN. -/
def SatAllPair (p : FP × FP) : Prop :=
  (p.1 = FP.ninf ∨ p.1 = FP.nan) ∧ (p.2 = FP.pinf ∨ p.2 = FP.nan)

/-- A slab pair that excludes every parameter: both bounds the same
infinity. -/
def OutPair (p : FP × FP) : Prop :=
  (p.1 = FP.pinf ∧ p.2 = FP.pinf) ∨ (p.1 = FP.ninf ∧ p.2 = FP.ninf)

/-- A slab pair represents a set of ray parameters: a nonempty closed
interval for finite pairs, everything for unconstraining pairs, nothing for
excluding pairs. -/
def RepW (p : FP × FP) (S : Set ℚ) : Prop :=
  (∃ lo hi : ℚ, lo ≤ hi ∧ p.1 = FP.fin lo ∧ p.2 = FP.fin hi ∧ S = Set.Icc lo hi) ∨
  (SatAllPair p ∧ S = Set.univ) ∨
  (OutPair p ∧ S = ∅)

/-- The parameter set satisfying one axis constraint of the box. -/
def axSet (d o mn mx : ℚ) : Set ℚ :=
  {t : ℚ | mn ≤ d * t + o ∧ d * t + o ≤ mx}

/-- The degenerate stationary ray of the C7 counterexample: origin left of
the unit box, direction all-zero. -/
def c7ray : Ray ℚ := ⟨⟨-1, 1/2, 1/2⟩, ⟨0, 0, 0⟩⟩

/-- The unit box of the C7 counterexample. -/
def c7box : AABBQ := ⟨⟨0, 0, 0⟩, ⟨1, 1, 1⟩⟩

/-- Outcome of a four-way rejection chain: null exactly when one of the
conditions holds, the final value otherwise. -/
theorem ite_chain_four {α : Type} (c1 c2 c3 c4 : Prop) [Decidable c1]
    [Decidable c2] [Decidable c3] [Decidable c4] (v : α) :
    ((if c1 then (none : Option α) else if c2 then none else if c3 then none
        else if c4 then none else some v) = none ↔ (c1 ∨ c2 ∨ c3 ∨ c4)) ∧
    (¬(c1 ∨ c2 ∨ c3 ∨ c4) →
      (if c1 then (none : Option α) else if c2 then none else if c3 then none
        else if c4 then none else some v) = some v) := by
  constructor
  · split_ifs <;> simp_all
  · intro h
    push_neg at h
    split_ifs <;> simp_all

/-- Characterisation of the non-degenerate `DdN < 0` path of
`intersectTriangle`. -/
theorem intersectTriangle_neg_branch (r : Ray ℚ) (tri : Tri ℚ) (bfc : Bool)
    (h : triDdN r tri < 0) :
    ((intersectTriangle r tri bfc = none ↔ triReject r tri) ∧
     (¬triReject r tri →
       intersectTriangle r tri bfc = some (r.at (triQdN r tri / |triDdN r tri|)))) := by
  have hs : triSign r tri = -1 := by
    simp [triSign, not_lt.mpr h.le]
  have hrej : triReject r tri =
      (-1 * r.direction.dot ((r.origin.sub tri.a).cross (tri.c.sub tri.a)) < 0 ∨
       -1 * r.direction.dot ((tri.b.sub tri.a).cross (r.origin.sub tri.a)) < 0 ∨
       -1 * r.direction.dot ((r.origin.sub tri.a).cross (tri.c.sub tri.a)) +
         -1 * r.direction.dot ((tri.b.sub tri.a).cross (r.origin.sub tri.a)) >
         -(r.direction.dot ((tri.b.sub tri.a).cross (tri.c.sub tri.a))) ∨
       - -1 * (r.origin.sub tri.a).dot ((tri.b.sub tri.a).cross (tri.c.sub tri.a)) < 0) := by
    simp only [triReject, triB1, triB2, triQdN, hs, abs_of_neg h]
    simp only [triDdN, triNormal]
  have hval : (r.at (triQdN r tri / |triDdN r tri|)) =
      (r.at ((- -1 * (r.origin.sub tri.a).dot ((tri.b.sub tri.a).cross (tri.c.sub tri.a))) /
        (-(r.direction.dot ((tri.b.sub tri.a).cross (tri.c.sub tri.a)))))) := by
    simp only [triQdN, hs, abs_of_neg h]
    simp only [triDdN, triNormal]
  have h' : r.direction.dot ((tri.b.sub tri.a).cross (tri.c.sub tri.a)) < 0 := by
    simpa only [triDdN, triNormal] using h
  have hgoal : intersectTriangle r tri bfc =
      (if -1 * r.direction.dot ((r.origin.sub tri.a).cross (tri.c.sub tri.a)) < 0 then none
       else if -1 * r.direction.dot ((tri.b.sub tri.a).cross (r.origin.sub tri.a)) < 0 then none
       else if -1 * r.direction.dot ((r.origin.sub tri.a).cross (tri.c.sub tri.a)) +
           -1 * r.direction.dot ((tri.b.sub tri.a).cross (r.origin.sub tri.a)) >
           -(r.direction.dot ((tri.b.sub tri.a).cross (tri.c.sub tri.a))) then none
       else if - -1 * (r.origin.sub tri.a).dot ((tri.b.sub tri.a).cross (tri.c.sub tri.a)) < 0 then none
       else some (r.at ((- -1 * (r.origin.sub tri.a).dot ((tri.b.sub tri.a).cross (tri.c.sub tri.a))) /
         (-(r.direction.dot ((tri.b.sub tri.a).cross (tri.c.sub tri.a))))))) := by
    simp only [intersectTriangle, not_lt.mpr h'.le, if_false, if_pos h', ite_false, ite_true]
  rw [hgoal, hrej, hval]
  exact ite_chain_four _ _ _ _ _

/-- Characterisation of the non-degenerate `DdN > 0`, culling-off path of
`intersectTriangle`. -/
theorem intersectTriangle_pos_branch (r : Ray ℚ) (tri : Tri ℚ)
    (h : 0 < triDdN r tri) :
    ((intersectTriangle r tri false = none ↔ triReject r tri) ∧
     (¬triReject r tri →
       intersectTriangle r tri false = some (r.at (triQdN r tri / |triDdN r tri|)))) := by
  have hs : triSign r tri = 1 := by
    simp [triSign, h]
  have hrej : triReject r tri =
      (1 * r.direction.dot ((r.origin.sub tri.a).cross (tri.c.sub tri.a)) < 0 ∨
       1 * r.direction.dot ((tri.b.sub tri.a).cross (r.origin.sub tri.a)) < 0 ∨
       1 * r.direction.dot ((r.origin.sub tri.a).cross (tri.c.sub tri.a)) +
         1 * r.direction.dot ((tri.b.sub tri.a).cross (r.origin.sub tri.a)) >
         r.direction.dot ((tri.b.sub tri.a).cross (tri.c.sub tri.a)) ∨
       -1 * (r.origin.sub tri.a).dot ((tri.b.sub tri.a).cross (tri.c.sub tri.a)) < 0) := by
    simp only [triReject, triB1, triB2, triQdN, hs, abs_of_pos h]
    simp only [triDdN, triNormal]
  have hval : (r.at (triQdN r tri / |triDdN r tri|)) =
      (r.at ((-1 * (r.origin.sub tri.a).dot ((tri.b.sub tri.a).cross (tri.c.sub tri.a))) /
        (r.direction.dot ((tri.b.sub tri.a).cross (tri.c.sub tri.a))))) := by
    simp only [triQdN, hs, abs_of_pos h]
    simp only [triDdN, triNormal]
  have h' : 0 < r.direction.dot ((tri.b.sub tri.a).cross (tri.c.sub tri.a)) := by
    simpa only [triDdN, triNormal] using h
  have hgoal : intersectTriangle r tri false =
      (if 1 * r.direction.dot ((r.origin.sub tri.a).cross (tri.c.sub tri.a)) < 0 then none
       else if 1 * r.direction.dot ((tri.b.sub tri.a).cross (r.origin.sub tri.a)) < 0 then none
       else if 1 * r.direction.dot ((r.origin.sub tri.a).cross (tri.c.sub tri.a)) +
           1 * r.direction.dot ((tri.b.sub tri.a).cross (r.origin.sub tri.a)) >
           r.direction.dot ((tri.b.sub tri.a).cross (tri.c.sub tri.a)) then none
       else if -1 * (r.origin.sub tri.a).dot ((tri.b.sub tri.a).cross (tri.c.sub tri.a)) < 0 then none
       else some (r.at ((-1 * (r.origin.sub tri.a).dot ((tri.b.sub tri.a).cross (tri.c.sub tri.a))) /
         (r.direction.dot ((tri.b.sub tri.a).cross (tri.c.sub tri.a)))))) := by
    simp only [intersectTriangle, if_pos h', Bool.false_eq_true, if_false, ite_false, ite_true]
  rw [hgoal, hrej, hval]
  exact ite_chain_four _ _ _ _ _

/-- C1: `Ray.intersectTriangle` returns null when `DdN = 0` (parallel ray),
returns null when `DdN > 0` with backface culling enabled, and otherwise
rejects exactly when `sign * direction·(v1 × edge2) < 0`, or
`sign * direction·(edge1 × v1) < 0`, or their sum strictly exceeds the
normalised `DdN`, or `-sign * v1·normal < 0` — all comparisons strict, so
equality of the sum with `DdN` accepts — and on acceptance returns the point
at `t = QdN / DdN`. -/
theorem C1_intersectTriangle_boundary (r : Ray ℚ) (tri : Tri ℚ) (bfc : Bool) :
    (triDdN r tri = 0 → intersectTriangle r tri bfc = none) ∧
    (0 < triDdN r tri → bfc = true → intersectTriangle r tri bfc = none) ∧
    (triDdN r tri ≠ 0 → ¬(0 < triDdN r tri ∧ bfc = true) →
      ((intersectTriangle r tri bfc = none ↔ triReject r tri) ∧
       (¬triReject r tri →
         intersectTriangle r tri bfc = some (r.at (triQdN r tri / |triDdN r tri|))))) := by
  refine ⟨fun h0 => ?_, fun hp ht => ?_, fun hne hnc => ?_⟩
  · have h0' : r.direction.dot ((tri.b.sub tri.a).cross (tri.c.sub tri.a)) = 0 := by
      simpa only [triDdN, triNormal] using h0
    simp [intersectTriangle, h0']
  · have hp' : 0 < r.direction.dot ((tri.b.sub tri.a).cross (tri.c.sub tri.a)) := by
      simpa only [triDdN, triNormal] using hp
    simp [intersectTriangle, hp', ht]
  · rcases lt_trichotomy (triDdN r tri) 0 with h | h | h
    · exact intersectTriangle_neg_branch r tri bfc h
    · exact absurd h hne
    · have hb : bfc = false := by
        cases bfc with
        | false => rfl
        | true => exact absurd ⟨h, rfl⟩ hnc
      rw [hb]
      exact intersectTriangle_pos_branch r tri h

/-- Witness for C1 at the spec's own end-to-end triangle example. -/
theorem C1_intersectTriangle_boundary_witness :
    (triDdN w1ray w1tri ≠ 0 ∧ ¬(0 < triDdN w1ray w1tri ∧ false = true) ∧
      ¬triReject w1ray w1tri) ∧
    intersectTriangle w1ray w1tri false =
      some (w1ray.at (triQdN w1ray w1tri / |triDdN w1ray w1tri|)) :=
  ⟨by norm_num [triDdN, triNormal, triReject, triB1, triB2, triQdN, triSign, w1ray, w1tri,
      Vec3.dot, Vec3.cross, Vec3.sub],
   ((C1_intersectTriangle_boundary w1ray w1tri false).2.2
      (by norm_num [triDdN, triNormal, w1ray, w1tri, Vec3.dot, Vec3.cross, Vec3.sub])
      (by norm_num [triDdN, triNormal, w1ray, w1tri, Vec3.dot, Vec3.cross, Vec3.sub])).2
      (by norm_num [triDdN, triNormal, triReject, triB1, triB2, triQdN, triSign, w1ray, w1tri,
        Vec3.dot, Vec3.cross, Vec3.sub])⟩

/-- C2: `Ray.intersectBoundingSphere` returns null when `d2` exceeds the
squared radius, returns null when both roots are negative, returns the exit
point at `t1` when `t0 < 0` and `t1 >= 0` (origin inside the sphere), and
otherwise returns the entry point at `t0`. -/
theorem C2_intersectBoundingSphere_cases (r : Ray ℝ) (s : BoundingSphere) :
    (sphD2 r s > s.radius * s.radius → intersectBoundingSphere r s = none) ∧
    (sphD2 r s ≤ s.radius * s.radius →
      ((sphT0 r s < 0 → sphT1 r s < 0 → intersectBoundingSphere r s = none) ∧
       (sphT0 r s < 0 → 0 ≤ sphT1 r s →
         intersectBoundingSphere r s = some (r.at (sphT1 r s))) ∧
       (0 ≤ sphT0 r s → intersectBoundingSphere r s = some (r.at (sphT0 r s))))) := by
  unfold intersectBoundingSphere
  simp only [sphT0, sphT1, sphD2, sphTca]
  refine ⟨fun h => ?_, fun h => ⟨fun h0 h1 => ?_, fun h0 h1 => ?_, fun h0 => ?_⟩⟩
  · rw [if_pos h]
  · rw [if_neg (not_lt.mpr h), if_pos ⟨h0, h1⟩]
  · rw [if_neg (not_lt.mpr h), if_neg (fun hc => absurd hc.2 (not_lt.mpr h1)), if_pos h0]
  · rw [if_neg (not_lt.mpr h), if_neg (fun hc => absurd hc.1 (not_lt.mpr h0)),
      if_neg (not_lt.mpr h0)]

/-- Witness for C2 at the spec's end-to-end sphere example: unit sphere at
the origin, ray from `(0,0,-5)` towards `+z`, entry point taken at `t0`. -/
theorem C2_intersectBoundingSphere_cases_witness :
    (sphD2 w2ray w2sph ≤ w2sph.radius * w2sph.radius ∧ 0 ≤ sphT0 w2ray w2sph) ∧
    intersectBoundingSphere w2ray w2sph = some (w2ray.at (sphT0 w2ray w2sph)) := by
  have h1 : sphD2 w2ray w2sph ≤ w2sph.radius * w2sph.radius := by
    norm_num [sphD2, sphTca, Vec3.dot, Vec3.sub, w2ray, w2sph]
  have h2 : 0 ≤ sphT0 w2ray w2sph := by
    norm_num [sphT0, sphD2, sphTca, Vec3.dot, Vec3.sub, w2ray, w2sph, Real.sqrt_one]
  exact ⟨⟨h1, h2⟩, (C2_intersectBoundingSphere_cases w2ray w2sph).2 h1 |>.2.2 h2⟩

/-- C3: `Ray.intersectAABB` returns null if a pairwise slab-interval test
fails or the folded `tmax` is negative; otherwise it returns the point at
the folded `tmin` when `tmin >= 0` and at the folded `tmax` when
`tmin < 0`. -/
theorem C3_intersectAABB_slab_cases (r : Ray ℚ) (box : AABBQ) :
    (aabbPairFail r box = true → intersectAABB r box = none) ∧
    (aabbPairFail r box = false →
      ((FP.lt (aabbTmax r box) (FP.fin 0) = true → intersectAABB r box = none) ∧
       (FP.lt (aabbTmax r box) (FP.fin 0) = false →
         ((FP.ge0 (aabbTmin r box) = true →
            intersectAABB r box = some (atFP r (aabbTmin r box))) ∧
          (FP.lt (aabbTmin r box) (FP.fin 0) = true →
            intersectAABB r box = some (atFP r (aabbTmax r box))))))) := by
  have hlt_ge0 : ∀ a : FP, FP.lt a (FP.fin 0) = true → FP.ge0 a = false := by
    intro a ha
    cases a <;> simp_all [FP.lt, FP.gt, FP.ge0]
  simp only [aabbPairFail, aabbTmin, aabbTmax, aabbFoldXY, aabbSlabX, aabbSlabY, aabbSlabZ,
    intersectAABB]
  cases hb1 : testReject (slabAxis r.direction.x r.origin.x box.min.x box.max.x)
      (slabAxis r.direction.y r.origin.y box.min.y box.max.y) with
  | true => simp [hb1]
  | false =>
    simp only [hb1, Bool.false_or, if_false, ite_false, Bool.false_eq_true]
    cases hb2 : testReject
        (foldMin (slabAxis r.direction.x r.origin.x box.min.x box.max.x).1
          (slabAxis r.direction.y r.origin.y box.min.y box.max.y).1,
         foldMax (slabAxis r.direction.x r.origin.x box.min.x box.max.x).2
          (slabAxis r.direction.y r.origin.y box.min.y box.max.y).2)
        (slabAxis r.direction.z r.origin.z box.min.z box.max.z) with
    | true => simp [hb2]
    | false =>
      simp only [hb2, if_false, ite_false, Bool.false_eq_true]
      refine ⟨fun h => absurd h (by simp), fun _ => ⟨fun hlt => by simp [hlt], fun hge => ?_⟩⟩
      simp only [hge, Bool.false_eq_true, if_false, ite_false]
      constructor
      · intro hge0
        simp [hge0]
      · intro hlt0
        rw [hlt_ge0 _ hlt0]
        simp

/-- Witness for C3 at the spec's end-to-end box example: unit box, ray from
`(0,0,-5)` towards `+z`, accepted at the folded `tmin`. -/
theorem C3_intersectAABB_slab_cases_witness :
    (aabbPairFail w3ray w3box = false ∧ FP.lt (aabbTmax w3ray w3box) (FP.fin 0) = false ∧
      FP.ge0 (aabbTmin w3ray w3box) = true) ∧
    intersectAABB w3ray w3box = some (atFP w3ray (aabbTmin w3ray w3box)) := by
  have h1 : aabbPairFail w3ray w3box = false := by
    norm_num [aabbPairFail, aabbFoldXY, aabbSlabX, aabbSlabY, aabbSlabZ, slabAxis, invdir,
      FP.mulQ, FP.ge0, FP.gt, FP.lt, FP.isNan, testReject, foldMin, foldMax, w3ray, w3box]
  have h2 : FP.lt (aabbTmax w3ray w3box) (FP.fin 0) = false := by
    norm_num [aabbTmax, aabbFoldXY, aabbSlabX, aabbSlabY, aabbSlabZ, slabAxis, invdir,
      FP.mulQ, FP.ge0, FP.gt, FP.lt, FP.isNan, foldMin, foldMax, w3ray, w3box]
  have h3 : FP.ge0 (aabbTmin w3ray w3box) = true := by
    norm_num [aabbTmin, aabbFoldXY, aabbSlabX, aabbSlabY, aabbSlabZ, slabAxis, invdir,
      FP.mulQ, FP.ge0, FP.gt, FP.lt, FP.isNan, foldMin, foldMax, w3ray, w3box]
  exact ⟨⟨h1, h2, h3⟩, (((C3_intersectAABB_slab_cases w3ray w3box).2 h1).2 h2).1 h3⟩

/-- C8: for a unit-length direction and `t >= 0`, `Ray.at` returns
`origin + direction * t` and the returned point lies at distance exactly `t`
from the origin. -/
theorem C8_at_unit_distance (r : Ray ℝ) (t : ℝ) (hunit : r.direction.dot r.direction = 1)
    (ht : 0 ≤ t) :
    r.at t = (r.direction.smul t).add r.origin ∧ dist3 (r.at t) r.origin = t := by
  refine ⟨rfl, ?_⟩
  have e1 : (r.at t).x - r.origin.x = r.direction.x * t := by
    simp [Ray.at, Vec3.smul, Vec3.add]
  have e2 : (r.at t).y - r.origin.y = r.direction.y * t := by
    simp [Ray.at, Vec3.smul, Vec3.add]
  have e3 : (r.at t).z - r.origin.z = r.direction.z * t := by
    simp [Ray.at, Vec3.smul, Vec3.add]
  unfold dist3
  rw [e1, e2, e3]
  have e4 : (r.direction.x * t) ^ 2 + (r.direction.y * t) ^ 2 + (r.direction.z * t) ^ 2 =
      (r.direction.dot r.direction) * t ^ 2 := by
    unfold Vec3.dot
    ring
  rw [e4, hunit, one_mul, Real.sqrt_sq ht]

/-- Witness for C8: ray at origin `(1,2,3)` with unit direction `(0,0,1)`
evaluated at `t = 5`. -/
theorem C8_at_unit_distance_witness :
    ((⟨⟨1, 2, 3⟩, ⟨0, 0, 1⟩⟩ : Ray ℝ).direction.dot (⟨⟨1, 2, 3⟩, ⟨0, 0, 1⟩⟩ : Ray ℝ).direction = 1 ∧
      (0 : ℝ) ≤ 5) ∧
    dist3 ((⟨⟨1, 2, 3⟩, ⟨0, 0, 1⟩⟩ : Ray ℝ).at 5) (⟨⟨1, 2, 3⟩, ⟨0, 0, 1⟩⟩ : Ray ℝ).origin = 5 :=
  ⟨⟨by norm_num [Vec3.dot], by norm_num⟩,
   (C8_at_unit_distance ⟨⟨1, 2, 3⟩, ⟨0, 0, 1⟩⟩ 5 (by norm_num [Vec3.dot]) (by norm_num)).2⟩

/-- Link between the stateful and the pure transcription of
`intersectTriangle`: the returned value never depends on the incoming
scratch state. -/
theorem intersectTriangleS_snd (s : Scratch) (r : Ray ℚ) (tri : Tri ℚ) (bfc : Bool) :
    (intersectTriangleS s r tri bfc).2 = intersectTriangle r tri bfc := by
  simp only [intersectTriangleS, intersectTriangle]
  rcases lt_trichotomy (r.direction.dot ((tri.b.sub tri.a).cross (tri.c.sub tri.a))) 0 with h | h | h
  · simp only [asymm h, not_lt.mpr h.le, if_false, if_pos h, ite_true, ite_false]
    split_ifs <;> rfl
  · simp [h]
  · cases bfc with
    | true => simp [h]
    | false =>
      simp only [if_pos h, Bool.false_eq_true, if_false, ite_false, ite_true]
      split_ifs <;> rfl

/-- C9: `Ray.intersectTriangle` is deterministic despite the shared scratch
vectors: a second call with identical inputs, run from the scratch state the
first call left behind, returns the identical result, and more generally the
returned value is independent of the incoming scratch state. -/
theorem C9_intersectTriangle_deterministic (s : Scratch) (r : Ray ℚ) (tri : Tri ℚ) (bfc : Bool) :
    (intersectTriangleS (intersectTriangleS s r tri bfc).1 r tri bfc).2 =
      (intersectTriangleS s r tri bfc).2 ∧
    ∀ s2 : Scratch, (intersectTriangleS s2 r tri bfc).2 =
      (intersectTriangleS s r tri bfc).2 := by
  constructor
  · rw [intersectTriangleS_snd, intersectTriangleS_snd]
  · intro s2
    rw [intersectTriangleS_snd, intersectTriangleS_snd]

/-- A rejecting `intersectBoundingSphereW` hands the result vector back
untouched. -/
theorem intersectBoundingSphereW_frame (r : Ray ℝ) (s : BoundingSphere)
    (res : Vec3 ℝ) (h : (intersectBoundingSphereW r s res).1 = none) :
    (intersectBoundingSphereW r s res).2 = res := by
  simp only [intersectBoundingSphereW] at h ⊢
  split_ifs at h ⊢ <;> simp_all

/-- A rejecting `intersectAABBW` hands the result vector back untouched. -/
theorem intersectAABBW_frame (r : Ray ℚ) (box : AABBQ) (res : Vec3 FP)
    (h : (intersectAABBW r box res).1 = none) :
    (intersectAABBW r box res).2 = res := by
  simp only [intersectAABBW] at h ⊢
  split_ifs at h ⊢ <;> simp_all

/-- A rejecting `intersectTriangleW` hands the result vector back untouched. -/
theorem intersectTriangleW_frame (r : Ray ℚ) (tri : Tri ℚ) (bfc : Bool)
    (res : Vec3 ℚ) (h : (intersectTriangleW r tri bfc res).1 = none) :
    (intersectTriangleW r tri bfc res).2 = res := by
  simp only [intersectTriangleW] at h ⊢
  rcases lt_trichotomy (r.direction.dot ((tri.b.sub tri.a).cross (tri.c.sub tri.a))) 0 with hd | hd | hd
  · simp only [asymm hd, not_lt.mpr hd.le, if_false, if_pos hd, ite_true, ite_false] at h ⊢
    split_ifs at h ⊢ <;> simp_all
  · simp [hd] at h ⊢
  · cases bfc with
    | true => simp [hd] at h ⊢
    | false =>
      simp only [if_pos hd, Bool.false_eq_true, if_false, ite_false, ite_true] at h ⊢
      split_ifs at h ⊢ <;> simp_all

/-- A missing non-indexed scan hands the result vector back untouched. -/
theorem scanSoupW_frame (r : Ray ℚ) (m : Matrix4) (bfc : Bool) :
    ∀ (vs : List ℚ) (res : Vec3 ℚ), (scanSoupW r m bfc vs res).1 = none →
      (scanSoupW r m bfc vs res).2 = res := by
  intro vs res
  induction vs, res using scanSoupW.induct r m bfc with
  | case1 x0 x1 x2 x3 x4 x5 x6 x7 x8 rest res ta tb tc p res1 heq =>
    intro h
    simp only [scanSoupW, heq] at h
    exact absurd h (by simp)
  | case2 x0 x1 x2 x3 x4 x5 x6 x7 x8 rest res ta tb tc res1 heq ih =>
    intro h
    have hres1 : res1 = res := by
      have hfr := intersectTriangleW_frame r _ bfc res (by rw [heq])
      rw [heq] at hfr
      exact hfr
    simp only [scanSoupW, heq] at h ⊢
    rw [ih h, hres1]
  | case3 t res hne =>
    intro h
    rcases t with _ | ⟨a0, _ | ⟨a1, _ | ⟨a2, _ | ⟨a3, _ | ⟨a4, _ | ⟨a5, _ | ⟨a6, _ | ⟨a7, _ | ⟨a8, t9⟩⟩⟩⟩⟩⟩⟩⟩⟩
    · rfl
    · rfl
    · rfl
    · rfl
    · rfl
    · rfl
    · rfl
    · rfl
    · rfl
    · exact (hne a0 a1 a2 a3 a4 a5 a6 a7 a8 t9 rfl).elim

/-- A missing indexed scan hands the result vector back untouched. -/
theorem scanIndexedW_frame (r : Ray ℚ) (m : Matrix4) (bfc : Bool) (vs : List ℚ) :
    ∀ (idx : List ℕ) (res : Vec3 ℚ), (scanIndexedW r m bfc vs idx res).1 = none →
      (scanIndexedW r m bfc vs idx res).2 = res := by
  intro idx res
  induction idx, res using scanIndexedW.induct r m bfc vs with
  | case1 ia ib ic rest res va vb vc hic hib hia p res1 heq =>
    intro h
    simp only [scanIndexedW, hia, hib, hic, heq] at h
    exact absurd h (by simp)
  | case2 ia ib ic rest res va vb vc hic hib hia res1 heq ih =>
    intro h
    have hres1 : res1 = res := by
      have hfr := intersectTriangleW_frame r _ bfc res (by rw [heq])
      rw [heq] at hfr
      exact hfr
    simp only [scanIndexedW, hia, hib, hic, heq] at h ⊢
    rw [ih h, hres1]
  | case3 ia ib ic rest res hne ih =>
    intro h
    rcases hia : getVertex vs ia with _ | va
    · simp only [scanIndexedW, hia] at h ⊢
      exact ih h
    · rcases hib : getVertex vs ib with _ | vb
      · simp only [scanIndexedW, hia, hib] at h ⊢
        exact ih h
      · rcases hic : getVertex vs ic with _ | vc
        · simp only [scanIndexedW, hia, hib, hic] at h ⊢
          exact ih h
        · exact (hne va vb vc hia hib hic).elim
  | case4 t res hne =>
    intro h
    rcases t with _ | ⟨a0, _ | ⟨a1, _ | ⟨a2, t3⟩⟩⟩
    · rfl
    · rfl
    · rfl
    · exact (hne a0 a1 a2 t3 rfl).elim

/-- A missing `Obstacle.intersectRayW` hands the result vector back
untouched. -/
theorem intersectRayW_frame (o : Obstacle) (r : Ray ℚ) (res : Vec3 ℚ)
    (h : (o.intersectRayW r res).1 = none) : (o.intersectRayW r res).2 = res := by
  unfold Obstacle.intersectRayW at h ⊢
  cases haabb : intersectAABB r (worldAABB o) with
  | none => simp [haabb]
  | some q =>
    cases hidx : o.geometry.indices with
    | none =>
      simp only [haabb, hidx] at h ⊢
      exact scanSoupW_frame r o.worldMatrix o.geometry.backfaceCulling _ _ h
    | some idx =>
      simp only [haabb, hidx] at h ⊢
      exact scanIndexedW_frame r o.worldMatrix o.geometry.backfaceCulling _ _ _ h

/-- C10: whenever any of the four intersection routines returns null, the
caller-supplied result vector is handed back completely unmodified — every
write happens on the accepting path. -/
theorem C10_null_leaves_result_unmodified :
    (∀ (r : Ray ℝ) (s : BoundingSphere) (res : Vec3 ℝ),
      (intersectBoundingSphereW r s res).1 = none →
        (intersectBoundingSphereW r s res).2 = res) ∧
    (∀ (r : Ray ℚ) (box : AABBQ) (res : Vec3 FP),
      (intersectAABBW r box res).1 = none → (intersectAABBW r box res).2 = res) ∧
    (∀ (r : Ray ℚ) (tri : Tri ℚ) (bfc : Bool) (res : Vec3 ℚ),
      (intersectTriangleW r tri bfc res).1 = none →
        (intersectTriangleW r tri bfc res).2 = res) ∧
    (∀ (o : Obstacle) (r : Ray ℚ) (res : Vec3 ℚ),
      (o.intersectRayW r res).1 = none → (o.intersectRayW r res).2 = res) :=
  ⟨intersectBoundingSphereW_frame, intersectAABBW_frame, intersectTriangleW_frame,
    intersectRayW_frame⟩

/-- Witness for C10: concrete rejecting inputs for all four routines, each
leaving the result vector `(7,7,7)` untouched. -/
theorem C10_null_leaves_result_unmodified_witness :
    ((intersectBoundingSphereW w10sphRay w2sph ⟨7, 7, 7⟩).1 = none ∧
      (intersectBoundingSphereW w10sphRay w2sph ⟨7, 7, 7⟩).2 = ⟨7, 7, 7⟩) ∧
    ((intersectAABBW w3ray w10box ⟨FP.fin 7, FP.fin 7, FP.fin 7⟩).1 = none ∧
      (intersectAABBW w3ray w10box ⟨FP.fin 7, FP.fin 7, FP.fin 7⟩).2 = ⟨FP.fin 7, FP.fin 7, FP.fin 7⟩) ∧
    ((intersectTriangleW w1ray w1tri true ⟨7, 7, 7⟩).1 = none ∧
      (intersectTriangleW w1ray w1tri true ⟨7, 7, 7⟩).2 = ⟨7, 7, 7⟩) ∧
    ((w10obs.intersectRayW w3ray ⟨7, 7, 7⟩).1 = none ∧
      (w10obs.intersectRayW w3ray ⟨7, 7, 7⟩).2 = ⟨7, 7, 7⟩) := by
  have h1 : (intersectBoundingSphereW w10sphRay w2sph ⟨7, 7, 7⟩).1 = none := by
    norm_num [intersectBoundingSphereW, Vec3.dot, Vec3.sub, w10sphRay, w2sph]
  have h2 : (intersectAABBW w3ray w10box ⟨FP.fin 7, FP.fin 7, FP.fin 7⟩).1 = none := by
    norm_num [intersectAABBW, slabAxis, invdir, FP.mulQ, FP.ge0, FP.gt, FP.lt, FP.isNan,
      testReject, foldMin, foldMax, w3ray, w10box]
  have h3 : (intersectTriangleW w1ray w1tri true ⟨7, 7, 7⟩).1 = none := by
    norm_num [intersectTriangleW, Vec3.dot, Vec3.cross, Vec3.sub, w1ray, w1tri]
  have hw : worldAABB w10obs = w10box := by
    norm_num [worldAABB, w10obs, aabbApplyMatrix4, applyPoint, idMatrix4, vmin, vmax, w10box]
  have hmiss : intersectAABB w3ray w10box = none := by
    norm_num [intersectAABB, slabAxis, invdir, FP.mulQ, FP.ge0, FP.gt, FP.lt, FP.isNan,
      testReject, foldMin, foldMax, w3ray, w10box]
  have h4 : (w10obs.intersectRayW w3ray ⟨7, 7, 7⟩).1 = none := by
    simp only [Obstacle.intersectRayW, hw, hmiss]
  exact ⟨⟨h1, C10_null_leaves_result_unmodified.1 _ _ _ h1⟩, ⟨h2, C10_null_leaves_result_unmodified.2.1 _ _ _ h2⟩,
    ⟨h3, C10_null_leaves_result_unmodified.2.2.1 _ _ _ _ h3⟩, ⟨h4, C10_null_leaves_result_unmodified.2.2.2 _ _ _ h4⟩⟩

/-- C5: when the ray misses the obstacle's world-space AABB (the local
geometry AABB transformed by the world matrix), `Obstacle.intersectRay`
returns null for every vertex and index buffer whatsoever — the narrow phase
is never consulted. -/
theorem C5_broadphase_miss_shortcircuit (aabb : AABBQ) (bfc : Bool) (m : Matrix4) (r : Ray ℚ)
    (h : intersectAABB r (aabbApplyMatrix4 aabb m) = none) :
    ∀ (vs : List ℚ) (idx : Option (List ℕ)),
      Obstacle.intersectRay ⟨⟨vs, idx, aabb, bfc⟩, m⟩ r = none := by
  intro vs idx
  unfold Obstacle.intersectRay
  simp [worldAABB, h]

/-- Witness for C5: world AABB far from the ray, deliberately malformed
vertex buffer `[1,2,3]`, null result. -/
theorem C5_broadphase_miss_shortcircuit_witness :
    intersectAABB w3ray (aabbApplyMatrix4 w10box idMatrix4) = none ∧
    Obstacle.intersectRay ⟨⟨[1, 2, 3], none, w10box, false⟩, idMatrix4⟩ w3ray = none := by
  have hw : aabbApplyMatrix4 w10box idMatrix4 = w10box := by
    norm_num [aabbApplyMatrix4, applyPoint, idMatrix4, vmin, vmax, w10box]
  have hmiss : intersectAABB w3ray w10box = none := by
    norm_num [intersectAABB, slabAxis, invdir, FP.mulQ, FP.ge0, FP.gt, FP.lt, FP.isNan,
      testReject, foldMin, foldMax, w3ray, w10box]
  have hmiss2 : intersectAABB w3ray (aabbApplyMatrix4 w10box idMatrix4) = none := by
    rw [hw]
    exact hmiss
  exact ⟨hmiss2, C5_broadphase_miss_shortcircuit w10box false idMatrix4 w3ray hmiss2 [1, 2, 3] none⟩

/-- The non-indexed scan agrees with the first hit over the claim-side
decoded triangle sequence. -/
theorem scanSoup_eq_firstTriHit (r : Ray ℚ) (m : Matrix4) (bfc : Bool) :
    ∀ vs : List ℚ, scanSoup r m bfc vs = firstTriHit r m bfc (soupTris vs) := by
  intro vs
  induction vs using scanSoup.induct r m bfc with
  | case1 x0 x1 x2 x3 x4 x5 x6 x7 x8 rest ta tb tc p heq =>
    simp only [scanSoup, soupTris, firstTriHit, mapTri, heq]
  | case2 x0 x1 x2 x3 x4 x5 x6 x7 x8 rest ta tb tc heq ih =>
    simp only [scanSoup, soupTris, firstTriHit, mapTri, heq]
    exact ih
  | case3 t hne =>
    rcases t with _ | ⟨a0, _ | ⟨a1, _ | ⟨a2, _ | ⟨a3, _ | ⟨a4, _ | ⟨a5, _ | ⟨a6, _ | ⟨a7, _ | ⟨a8, t9⟩⟩⟩⟩⟩⟩⟩⟩⟩
    · rfl
    · rfl
    · rfl
    · rfl
    · rfl
    · rfl
    · rfl
    · rfl
    · rfl
    · exact (hne a0 a1 a2 a3 a4 a5 a6 a7 a8 t9 rfl).elim

/-- The indexed scan agrees with the first hit over the claim-side decoded
triangle sequence. -/
theorem scanIndexed_eq_firstTriHit (r : Ray ℚ) (m : Matrix4) (bfc : Bool) (vs : List ℚ) :
    ∀ idx : List ℕ, scanIndexed r m bfc vs idx = firstTriHit r m bfc (indexedTris vs idx) := by
  intro idx
  induction idx using scanIndexed.induct r m bfc vs with
  | case1 ia ib ic rest va vb vc hic hib hia p heq =>
    simp only [scanIndexed, indexedTris, firstTriHit, hia, hib, hic, heq]
  | case2 ia ib ic rest va vb vc hic hib hia heq ih =>
    simp only [scanIndexed, indexedTris, firstTriHit, hia, hib, hic, heq]
    exact ih
  | case3 ia ib ic rest hne ih =>
    rcases hia : getVertex vs ia with _ | va
    · simp only [scanIndexed, indexedTris, firstTriHit, hia]
      exact ih
    · rcases hib : getVertex vs ib with _ | vb
      · simp only [scanIndexed, indexedTris, firstTriHit, hia, hib]
        exact ih
      · rcases hic : getVertex vs ic with _ | vc
        · simp only [scanIndexed, indexedTris, firstTriHit, hia, hib, hic]
          exact ih
        · exact (hne va vb vc hia hib hic).elim
  | case4 t hne =>
    rcases t with _ | ⟨a0, _ | ⟨a1, _ | ⟨a2, t3⟩⟩⟩
    · rfl
    · rfl
    · rfl
    · exact (hne a0 a1 a2 t3 rfl).elim

/-- Structural characterisation of `Obstacle.intersectRay`: the broad-phase
guard followed by the first hit over the decoded, world-transformed triangle
sequence of the geometry. -/
theorem intersectRay_characterisation (o : Obstacle) (r : Ray ℚ) :
    o.intersectRay r =
      match intersectAABB r (worldAABB o) with
      | none => none
      | some _ =>
        firstTriHit r o.worldMatrix o.geometry.backfaceCulling (trianglesOf o.geometry) := by
  unfold Obstacle.intersectRay
  cases intersectAABB r (worldAABB o) with
  | none => rfl
  | some q =>
    cases hidx : o.geometry.indices with
    | none =>
      simp only [trianglesOf, hidx]
      exact scanSoup_eq_firstTriHit r o.worldMatrix o.geometry.backfaceCulling o.geometry.vertices
    | some idx =>
      simp only [trianglesOf, hidx]
      exact scanIndexed_eq_firstTriHit r o.worldMatrix o.geometry.backfaceCulling
        o.geometry.vertices idx

/-- C6: the narrow phase decodes non-indexed geometry exactly when
`indices` is `none` (consecutive 9-float triples), decodes indexed geometry
by consuming indices three at a time with stride-3 lookups, transforms every
vertex by the world matrix before the triangle test (inside `firstTriHit`
via `mapTri`), and produces triangles in buffer order. -/
theorem C6_geometry_decoding (o : Obstacle) (r : Ray ℚ) :
    (o.geometry.indices = none →
      trianglesOf o.geometry = soupTris o.geometry.vertices) ∧
    (∀ idx, o.geometry.indices = some idx →
      trianglesOf o.geometry = indexedTris o.geometry.vertices idx) ∧
    o.intersectRay r =
      match intersectAABB r (worldAABB o) with
      | none => none
      | some _ =>
        firstTriHit r o.worldMatrix o.geometry.backfaceCulling (trianglesOf o.geometry) := by
  refine ⟨fun h => ?_, fun idx h => ?_, intersectRay_characterisation o r⟩
  · simp [trianglesOf, h]
  · simp [trianglesOf, h]

/-- Witness for C6 on a concrete indexed geometry. -/
theorem C6_geometry_decoding_witness :
    (w6obs.geometry.indices = some [0, 1, 2] ∧
      trianglesOf w6obs.geometry = indexedTris w6obs.geometry.vertices [0, 1, 2]) ∧
    w6obs.intersectRay w1ray =
      match intersectAABB w1ray (worldAABB w6obs) with
      | none => none
      | some _ =>
        firstTriHit w1ray w6obs.worldMatrix w6obs.geometry.backfaceCulling
          (trianglesOf w6obs.geometry) :=
  ⟨⟨rfl, (C6_geometry_decoding w6obs w1ray).2.1 [0, 1, 2] rfl⟩, (C6_geometry_decoding w6obs w1ray).2.2⟩

/-- A first-in-order hit wins over the decoded sequence: if every earlier
entry misses and entry `t` hits at `p`, the scan returns `p`, whatever comes
later. -/
theorem firstTriHit_prefix (r : Ray ℚ) (m : Matrix4) (bfc : Bool) (t : Tri ℚ)
    (p : Vec3 ℚ) (ht : intersectTriangle r (mapTri m t) bfc = some p) :
    ∀ (pre post : List (Option (Tri ℚ))),
      (∀ t' ∈ pre, (Option.bind t' fun tr => intersectTriangle r (mapTri m tr) bfc) = none) →
      firstTriHit r m bfc (pre ++ some t :: post) = some p := by
  intro pre
  induction pre with
  | nil =>
    intro post _
    simp only [List.nil_append, firstTriHit, ht]
  | cons hd tl ih =>
    intro post hpre
    have hhd := hpre hd (List.mem_cons_self hd tl)
    cases hd with
    | none =>
      simp only [List.cons_append, firstTriHit]
      exact ih post (fun t' htl => hpre t' (List.mem_cons_of_mem _ htl))
    | some tr =>
      simp only [Option.bind] at hhd
      simp only [List.cons_append, firstTriHit, hhd]
      exact ih post (fun t' htl => hpre t' (List.mem_cons_of_mem _ htl))

/-- C4 (amended): provided the broad-phase AABB test passes,
`Obstacle.intersectRay` returns the hit point of the first intersecting
triangle in primitive iteration order and terminates there — the list of
later triangles is arbitrary, so in particular a strictly closer later hit
is ignored. -/
theorem C4_first_hit_in_order (o : Obstacle) (r : Ray ℚ) (q : Vec3 FP)
    (pre post : List (Option (Tri ℚ))) (t : Tri ℚ) (p : Vec3 ℚ)
    (hb : intersectAABB r (worldAABB o) = some q)
    (hdec : trianglesOf o.geometry = pre ++ some t :: post)
    (hpre : ∀ t' ∈ pre,
      (Option.bind t' fun tr =>
        intersectTriangle r (mapTri o.worldMatrix tr) o.geometry.backfaceCulling) = none)
    (ht : intersectTriangle r (mapTri o.worldMatrix t) o.geometry.backfaceCulling = some p) :
    o.intersectRay r = some p := by
  rw [intersectRay_characterisation o r, hb, hdec]
  exact firstTriHit_prefix r o.worldMatrix o.geometry.backfaceCulling t p ht pre post hpre

/-- Counterexample to C4 as stated: a mesh whose single triangle intersects
the ray, but whose stored bounding box lies elsewhere, makes
`Obstacle.intersectRay` return null — so intersecting a triangle alone does
not guarantee a returned point. -/
theorem C4_first_hit_counterexample :
    (trianglesOf c4xobs.geometry = [some ⟨⟨-1, 0, 0⟩, ⟨1, 0, 0⟩, ⟨0, 1, 0⟩⟩] ∧
     intersectTriangle w1ray
       (mapTri c4xobs.worldMatrix ⟨⟨-1, 0, 0⟩, ⟨1, 0, 0⟩, ⟨0, 1, 0⟩⟩)
       c4xobs.geometry.backfaceCulling = some ⟨0, 3/10, 0⟩) ∧
    Obstacle.intersectRay c4xobs w1ray = none := by
  have hmt : mapTri c4xobs.worldMatrix (⟨⟨-1, 0, 0⟩, ⟨1, 0, 0⟩, ⟨0, 1, 0⟩⟩ : Tri ℚ) =
      ⟨⟨-1, 0, 0⟩, ⟨1, 0, 0⟩, ⟨0, 1, 0⟩⟩ := by
    norm_num [mapTri, c4xobs, applyPoint, idMatrix4]
  refine ⟨⟨rfl, ?_⟩, ?_⟩
  · rw [hmt]
    norm_num [intersectTriangle, Vec3.dot, Vec3.cross, Vec3.sub, Vec3.smul, Vec3.add,
      Ray.at, w1ray, c4xobs]
  · have hw : worldAABB c4xobs = ⟨⟨100, 100, 100⟩, ⟨101, 101, 101⟩⟩ := by
      norm_num [worldAABB, c4xobs, aabbApplyMatrix4, applyPoint, idMatrix4, vmin, vmax]
    have hmiss : intersectAABB w1ray (⟨⟨100, 100, 100⟩, ⟨101, 101, 101⟩⟩ : AABBQ) = none := by
      norm_num [intersectAABB, slabAxis, invdir, FP.mulQ, FP.ge0, FP.gt, FP.lt, FP.isNan,
        testReject, foldMin, foldMax, w1ray]
    unfold Obstacle.intersectRay
    rw [hw, hmiss]

/-- Witness for the amended C4: two triangles both hit by the ray, the
first-in-order one strictly farther (t = 10) than the second (t = 5); the
returned point is the first triangle's. -/
theorem C4_first_hit_in_order_witness :
    (intersectAABB w1ray (worldAABB w4obs) = some ⟨FP.fin 0, FP.fin (3/10), FP.fin (-1)⟩ ∧
     trianglesOf w4obs.geometry = [some w4far, some w4near] ∧
     intersectTriangle w1ray (mapTri w4obs.worldMatrix w4far)
       w4obs.geometry.backfaceCulling = some ⟨0, 3/10, 5⟩ ∧
     intersectTriangle w1ray (mapTri w4obs.worldMatrix w4near)
       w4obs.geometry.backfaceCulling = some ⟨0, 3/10, 0⟩) ∧
    Obstacle.intersectRay w4obs w1ray = some ⟨0, 3/10, 5⟩ := by
  have hw : worldAABB w4obs = ⟨⟨-1, -1, -1⟩, ⟨1, 1, 6⟩⟩ := by
    norm_num [worldAABB, w4obs, aabbApplyMatrix4, applyPoint, idMatrix4, vmin, vmax]
  have hb : intersectAABB w1ray (worldAABB w4obs) =
      some ⟨FP.fin 0, FP.fin (3/10), FP.fin (-1)⟩ := by
    rw [hw]
    norm_num [intersectAABB, slabAxis, invdir, FP.mulQ, FP.ge0, FP.gt, FP.lt, FP.isNan,
      testReject, foldMin, foldMax, atFP, FP.addQ, w1ray]
  have hmf : mapTri w4obs.worldMatrix w4far = w4far := by
    norm_num [mapTri, w4obs, w4far, applyPoint, idMatrix4]
  have hmn : mapTri w4obs.worldMatrix w4near = w4near := by
    norm_num [mapTri, w4obs, w4near, applyPoint, idMatrix4]
  have htf : intersectTriangle w1ray (mapTri w4obs.worldMatrix w4far)
      w4obs.geometry.backfaceCulling = some ⟨0, 3/10, 5⟩ := by
    rw [hmf]
    norm_num [intersectTriangle, Vec3.dot, Vec3.cross, Vec3.sub, Vec3.smul, Vec3.add,
      Ray.at, w1ray, w4far, w4obs]
  have htn : intersectTriangle w1ray (mapTri w4obs.worldMatrix w4near)
      w4obs.geometry.backfaceCulling = some ⟨0, 3/10, 0⟩ := by
    rw [hmn]
    norm_num [intersectTriangle, Vec3.dot, Vec3.cross, Vec3.sub, Vec3.smul, Vec3.add,
      Ray.at, w1ray, w4near, w4obs]
  refine ⟨⟨hb, rfl, htf, htn⟩, ?_⟩
  exact C4_first_hit_in_order w4obs w1ray ⟨FP.fin 0, FP.fin (3/10), FP.fin (-1)⟩ [] [some w4near]
    w4far ⟨0, 3/10, 5⟩ hb rfl (by simp) htf

/-- Per-axis classification: the slab pair computed by the source represents
exactly the axis constraint set, for every direction component, provided the
box bound order invariant holds. -/
theorem slabAxis_rep (d o mn mx : ℚ) (hbox : mn ≤ mx) :
    RepW (slabAxis d o mn mx) (axSet d o mn mx) := by
  rcases lt_trichotomy d 0 with hd | hd | hd
  · left
    have hdne : d ≠ 0 := ne_of_lt hd
    have hinv : d⁻¹ < 0 := inv_lt_zero.mpr hd
    have hcomp : slabAxis d o mn mx =
        (FP.fin ((mx - o) * d⁻¹), FP.fin ((mn - o) * d⁻¹)) := by
      simp [slabAxis, invdir, hdne, FP.ge0, FP.mulQ, not_le.mpr hinv]
    refine ⟨(mx - o) * d⁻¹, (mn - o) * d⁻¹, ?_, by rw [hcomp], by rw [hcomp], ?_⟩
    · apply mul_le_mul_of_nonpos_right (sub_le_sub_right hbox o) hinv.le
    · ext t
      simp only [axSet, Set.mem_setOf_eq, Set.mem_Icc]
      rw [show (mx - o) * d⁻¹ = (mx - o) / d by rw [div_eq_mul_inv],
        show (mn - o) * d⁻¹ = (mn - o) / d by rw [div_eq_mul_inv],
        div_le_iff_of_neg hd, le_div_iff_of_neg hd]
      constructor
      · rintro ⟨h1, h2⟩
        exact ⟨by nlinarith, by nlinarith⟩
      · rintro ⟨h1, h2⟩
        exact ⟨by nlinarith, by nlinarith⟩
  · subst hd
    have hcomp : slabAxis 0 o mn mx =
        (FP.mulQ (mn - o) FP.pinf, FP.mulQ (mx - o) FP.pinf) := by
      simp [slabAxis, invdir, FP.ge0]
    rcases lt_or_le o mn with hpos | h1
    · right; right
      constructor
      · left
        rw [hcomp]
        have e1 : FP.mulQ (mn - o) FP.pinf = FP.pinf := by
          simp [FP.mulQ, sub_pos.mpr hpos]
        have e2 : FP.mulQ (mx - o) FP.pinf = FP.pinf := by
          simp [FP.mulQ, sub_pos.mpr (lt_of_lt_of_le hpos hbox)]
        rw [e1, e2]
        exact ⟨rfl, rfl⟩
      · ext t
        simp only [axSet, Set.mem_setOf_eq, Set.mem_empty_iff_false, iff_false, not_and,
          not_le, zero_mul, zero_add]
        intro h
        linarith
    · rcases lt_or_le mx o with hneg | h2
      · right; right
        constructor
        · right
          rw [hcomp]
          have e1 : FP.mulQ (mn - o) FP.pinf = FP.ninf := by
            simp [FP.mulQ, sub_neg.mpr (lt_of_le_of_lt hbox hneg), asymm (sub_neg.mpr (lt_of_le_of_lt hbox hneg))]
          have e2 : FP.mulQ (mx - o) FP.pinf = FP.ninf := by
            simp [FP.mulQ, sub_neg.mpr hneg, asymm (sub_neg.mpr hneg)]
          rw [e1, e2]
          exact ⟨rfl, rfl⟩
        · ext t
          simp only [axSet, Set.mem_setOf_eq, Set.mem_empty_iff_false, iff_false, not_and,
            not_le, zero_mul, zero_add]
          intro h
          linarith
      · right; left
        constructor
        · rw [hcomp]
          constructor
          · rcases eq_or_lt_of_le h1 with he | hlt
            · right
              simp [FP.mulQ, he]
            · left
              simp [FP.mulQ, sub_neg.mpr hlt, asymm (sub_neg.mpr hlt)]
          · rcases eq_or_lt_of_le h2 with he | hlt
            · right
              simp [FP.mulQ, ← he]
            · left
              simp [FP.mulQ, sub_pos.mpr hlt]
        · ext t
          simp only [axSet, Set.mem_setOf_eq, Set.mem_univ, iff_true, zero_mul, zero_add]
          exact ⟨h1, h2⟩
  · left
    have hdne : d ≠ 0 := ne_of_gt hd
    have hinv : 0 < d⁻¹ := inv_pos.mpr hd
    have hcomp : slabAxis d o mn mx =
        (FP.fin ((mn - o) * d⁻¹), FP.fin ((mx - o) * d⁻¹)) := by
      simp [slabAxis, invdir, hdne, FP.ge0, FP.mulQ, hinv.le]
    refine ⟨(mn - o) * d⁻¹, (mx - o) * d⁻¹, ?_, by rw [hcomp], by rw [hcomp], ?_⟩
    · apply mul_le_mul_of_nonneg_right (sub_le_sub_right hbox o) hinv.le
    · ext t
      simp only [axSet, Set.mem_setOf_eq, Set.mem_Icc]
      rw [show (mn - o) * d⁻¹ = (mn - o) / d by rw [div_eq_mul_inv],
        show (mx - o) * d⁻¹ = (mx - o) / d by rw [div_eq_mul_inv],
        div_le_iff₀ hd, le_div_iff₀ hd]
      constructor
      · rintro ⟨h1, h2⟩
        exact ⟨by nlinarith, by nlinarith⟩
      · rintro ⟨h1, h2⟩
        exact ⟨by nlinarith, by nlinarith⟩

/-- Finite folds compute maximum and minimum. -/
theorem foldMin_fin_fin (a b : ℚ) : foldMin (FP.fin a) (FP.fin b) = FP.fin (max a b) := by
  by_cases h : a < b
  · simp [foldMin, FP.gt, FP.isNan, h, max_eq_right h.le]
  · simp [foldMin, FP.gt, FP.isNan, h, max_eq_left (not_lt.mp h)]

/-- Finite upper folds compute the minimum. -/
theorem foldMax_fin_fin (a b : ℚ) : foldMax (FP.fin a) (FP.fin b) = FP.fin (min a b) := by
  by_cases h : b < a
  · simp [foldMax, FP.lt, FP.gt, FP.isNan, h, min_eq_right h.le]
  · simp [foldMax, FP.lt, FP.gt, FP.isNan, h, min_eq_left (not_lt.mp h)]

/-- A rejecting pairwise test means the two represented sets are disjoint. -/
theorem step_reject (p1 p2 q1 q2 : FP) (S T : Set ℚ)
    (hp : RepW (p1, p2) S) (hq : RepW (q1, q2) T)
    (h : testReject (p1, p2) (q1, q2) = true) : S ∩ T = ∅ := by
  rcases hp with ⟨lo1, hi1, hle1, hp1, hp2, hS⟩ | ⟨⟨hpa, hpb⟩, hS⟩ | ⟨_, hS⟩
  · rcases hq with ⟨lo2, hi2, hle2, hq1, hq2, hT⟩ | ⟨⟨hqa, hqb⟩, hT⟩ | ⟨_, hT⟩
    · simp only at hp1 hp2 hq1 hq2
      subst hp1 hp2 hq1 hq2 hS hT
      simp only [testReject, FP.gt, Bool.or_eq_true, decide_eq_true_eq] at h
      rw [Set.Icc_inter_Icc]
      apply Set.Icc_eq_empty
      intro hcon
      rcases h with h | h
      · exact absurd (le_trans (le_max_left lo1 lo2) (le_trans hcon (min_le_right hi1 hi2)))
          (not_le.mpr h)
      · exact absurd (le_trans (le_max_right lo1 lo2) (le_trans hcon (min_le_left hi1 hi2)))
          (not_le.mpr h)
    · exfalso
      simp only at hp1 hp2 hqa hqb
      subst hp1 hp2
      rcases hqa with hqa | hqa <;> rcases hqb with hqb | hqb <;> subst hqa hqb <;>
        simp [testReject, FP.gt] at h
    · subst hT
      exact Set.inter_empty S
  · rcases hq with ⟨lo2, hi2, hle2, hq1, hq2, hT⟩ | ⟨⟨hqa, hqb⟩, hT⟩ | ⟨_, hT⟩
    · exfalso
      simp only at hq1 hq2 hpa hpb
      subst hq1 hq2
      rcases hpa with hpa | hpa <;> rcases hpb with hpb | hpb <;> subst hpa hpb <;>
        simp [testReject, FP.gt] at h
    · exfalso
      simp only at hpa hpb hqa hqb
      rcases hpa with hpa | hpa <;> rcases hpb with hpb | hpb <;>
        rcases hqa with hqa | hqa <;> rcases hqb with hqb | hqb <;>
          subst hpa hpb hqa hqb <;> simp [testReject, FP.gt] at h
    · subst hT
      exact Set.inter_empty S
  · subst hS
    exact Set.empty_inter T

/-- A passing pairwise test folds two represented slab pairs into a
representation of the intersection of their sets. -/
theorem step_fold (p1 p2 q1 q2 : FP) (S T : Set ℚ)
    (hp : RepW (p1, p2) S) (hq : RepW (q1, q2) T)
    (h : testReject (p1, p2) (q1, q2) = false) :
    RepW (foldMin p1 q1, foldMax p2 q2) (S ∩ T) := by
  rcases hp with ⟨lo1, hi1, hle1, hp1, hp2, hS⟩ | ⟨⟨hpa, hpb⟩, hS⟩ | ⟨hout, hS⟩
  · rcases hq with ⟨lo2, hi2, hle2, hq1, hq2, hT⟩ | ⟨⟨hqa, hqb⟩, hT⟩ | ⟨hout, hT⟩
    · simp only at hp1 hp2 hq1 hq2
      subst hp1 hp2 hq1 hq2 hS hT
      simp only [testReject, FP.gt, Bool.or_eq_false_iff, decide_eq_false_iff_not,
        not_lt] at h
      left
      refine ⟨max lo1 lo2, min hi1 hi2, ?_, by simp [foldMin_fin_fin],
        by simp [foldMax_fin_fin], by rw [Set.Icc_inter_Icc]⟩
      simp only [max_le_iff, le_min_iff]
      exact ⟨⟨hle1, h.2⟩, ⟨h.1, hle2⟩⟩
    · simp only at hp1 hp2 hqa hqb
      subst hp1 hp2 hS hT
      left
      refine ⟨lo1, hi1, hle1, ?_, ?_, by rw [Set.inter_univ]⟩
      · rcases hqa with hqa | hqa <;> subst hqa <;> simp [foldMin, FP.gt, FP.isNan]
      · rcases hqb with hqb | hqb <;> subst hqb <;> simp [foldMax, FP.lt, FP.gt, FP.isNan]
    · exfalso
      simp only at hp1 hp2
      subst hp1 hp2
      rcases hout with ⟨ho1, ho2⟩ | ⟨ho1, ho2⟩ <;> simp only at ho1 ho2 <;>
        subst ho1 ho2 <;> simp [testReject, FP.gt] at h
  · rcases hq with ⟨lo2, hi2, hle2, hq1, hq2, hT⟩ | ⟨⟨hqa, hqb⟩, hT⟩ | ⟨hout, hT⟩
    · simp only at hq1 hq2 hpa hpb
      subst hq1 hq2 hS hT
      left
      refine ⟨lo2, hi2, hle2, ?_, ?_, by rw [Set.univ_inter]⟩
      · rcases hpa with hpa | hpa <;> subst hpa <;> simp [foldMin, FP.gt, FP.isNan]
      · rcases hpb with hpb | hpb <;> subst hpb <;> simp [foldMax, FP.lt, FP.gt, FP.isNan]
    · subst hS hT
      right; left
      refine ⟨⟨?_, ?_⟩, by rw [Set.univ_inter]⟩
      · simp only at hpa hqa ⊢
        rcases hpa with hpa | hpa <;> rcases hqa with hqa | hqa <;> subst hpa hqa <;>
          simp [foldMin, FP.gt, FP.isNan]
      · simp only at hpb hqb ⊢
        rcases hpb with hpb | hpb <;> rcases hqb with hqb | hqb <;> subst hpb hqb <;>
          simp [foldMax, FP.lt, FP.gt, FP.isNan]
    · subst hS hT
      right; right
      refine ⟨?_, by rw [Set.inter_empty]⟩
      simp only at hpa hpb ⊢
      rcases hout with ⟨ho1, ho2⟩ | ⟨ho1, ho2⟩ <;> simp only at ho1 ho2 <;> subst ho1 ho2
      · left
        constructor
        · rcases hpa with hpa | hpa <;> subst hpa <;> simp [foldMin, FP.gt, FP.isNan]
        · rcases hpb with hpb | hpb <;> subst hpb <;> simp [foldMax, FP.lt, FP.gt, FP.isNan]
      · right
        constructor
        · rcases hpa with hpa | hpa <;> subst hpa <;> simp [foldMin, FP.gt, FP.isNan]
        · rcases hpb with hpb | hpb <;> subst hpb <;> simp [foldMax, FP.lt, FP.gt, FP.isNan]
  · rcases hq with ⟨lo2, hi2, hle2, hq1, hq2, hT⟩ | ⟨⟨hqa, hqb⟩, hT⟩ | ⟨hout2, hT⟩
    · exfalso
      simp only at hq1 hq2
      subst hq1 hq2
      rcases hout with ⟨ho1, ho2⟩ | ⟨ho1, ho2⟩ <;> simp only at ho1 ho2 <;>
        subst ho1 ho2 <;> simp [testReject, FP.gt] at h
    · subst hS hT
      right; right
      refine ⟨?_, by rw [Set.empty_inter]⟩
      simp only at hqa hqb ⊢
      rcases hout with ⟨ho1, ho2⟩ | ⟨ho1, ho2⟩ <;> simp only at ho1 ho2 <;> subst ho1 ho2
      · left
        constructor
        · rcases hqa with hqa | hqa <;> subst hqa <;> simp [foldMin, FP.gt, FP.isNan]
        · rcases hqb with hqb | hqb <;> subst hqb <;> simp [foldMax, FP.lt, FP.gt, FP.isNan]
      · right
        constructor
        · rcases hqa with hqa | hqa <;> subst hqa <;> simp [foldMin, FP.gt, FP.isNan]
        · rcases hqb with hqb | hqb <;> subst hqb <;> simp [foldMax, FP.lt, FP.gt, FP.isNan]
    · subst hS hT
      right; right
      refine ⟨?_, by rw [Set.empty_inter]⟩
      rcases hout with ⟨ho1, ho2⟩ | ⟨ho1, ho2⟩ <;> rcases hout2 with ⟨hu1, hu2⟩ | ⟨hu1, hu2⟩ <;>
        simp only at ho1 ho2 hu1 hu2 <;> subst ho1 ho2 hu1 hu2
      · left
        exact ⟨by simp [foldMin, FP.gt, FP.isNan], by simp [foldMax, FP.lt, FP.gt, FP.isNan]⟩
      · exfalso
        simp [testReject, FP.gt] at h
      · exfalso
        simp [testReject, FP.gt] at h
      · right
        exact ⟨by simp [foldMin, FP.gt, FP.isNan], by simp [foldMax, FP.lt, FP.gt, FP.isNan]⟩

/-- Folding preserves finiteness when one side is finite and the pairwise
test passes. -/
theorem step_fold_finpair (p1 p2 q1 q2 : FP) (S T : Set ℚ)
    (hp : RepW (p1, p2) S) (hq : RepW (q1, q2) T)
    (h : testReject (p1, p2) (q1, q2) = false)
    (hfin : FinPair (p1, p2) ∨ FinPair (q1, q2)) :
    FinPair (foldMin p1 q1, foldMax p2 q2) := by
  rcases hp with ⟨lo1, hi1, hle1, hp1, hp2, hS⟩ | ⟨⟨hpa, hpb⟩, hS⟩ | ⟨hout, hS⟩
  · rcases hq with ⟨lo2, hi2, hle2, hq1, hq2, hT⟩ | ⟨⟨hqa, hqb⟩, hT⟩ | ⟨hout, hT⟩
    · simp only at hp1 hp2 hq1 hq2
      subst hp1 hp2 hq1 hq2
      exact ⟨max lo1 lo2, min hi1 hi2, by simp [foldMin_fin_fin], by simp [foldMax_fin_fin]⟩
    · simp only at hp1 hp2 hqa hqb
      subst hp1 hp2
      refine ⟨lo1, hi1, ?_, ?_⟩
      · rcases hqa with hqa | hqa <;> subst hqa <;> simp [foldMin, FP.gt, FP.isNan]
      · rcases hqb with hqb | hqb <;> subst hqb <;> simp [foldMax, FP.lt, FP.gt, FP.isNan]
    · exfalso
      simp only at hp1 hp2
      subst hp1 hp2
      rcases hout with ⟨ho1, ho2⟩ | ⟨ho1, ho2⟩ <;> simp only at ho1 ho2 <;>
        subst ho1 ho2 <;> simp [testReject, FP.gt] at h
  · rcases hq with ⟨lo2, hi2, hle2, hq1, hq2, hT⟩ | ⟨⟨hqa, hqb⟩, hT⟩ | ⟨hout, hT⟩
    · simp only at hq1 hq2 hpa hpb
      subst hq1 hq2
      refine ⟨lo2, hi2, ?_, ?_⟩
      · rcases hpa with hpa | hpa <;> subst hpa <;> simp [foldMin, FP.gt, FP.isNan]
      · rcases hpb with hpb | hpb <;> subst hpb <;> simp [foldMax, FP.lt, FP.gt, FP.isNan]
    · exfalso
      simp only at hpa hpb hqa hqb
      rcases hfin with ⟨lo, hi, hf1, hf2⟩ | ⟨lo, hi, hf1, hf2⟩ <;> simp only at hf1 hf2
      · rcases hpa with hpa | hpa <;> rw [hpa] at hf1 <;> exact absurd hf1 (by simp)
      · rcases hqa with hqa | hqa <;> rw [hqa] at hf1 <;> exact absurd hf1 (by simp)
    · exfalso
      simp only at hpa hpb
      rcases hfin with ⟨lo, hi, hf1, hf2⟩ | ⟨lo, hi, hf1, hf2⟩ <;> simp only at hf1 hf2
      · rcases hpa with hpa | hpa <;> rw [hpa] at hf1 <;> exact absurd hf1 (by simp)
      · rcases hout with ⟨ho1, ho2⟩ | ⟨ho1, ho2⟩ <;> simp only at ho1 ho2 <;>
          rw [ho1] at hf1 <;> exact absurd hf1 (by simp)
  · rcases hq with ⟨lo2, hi2, hle2, hq1, hq2, hT⟩ | ⟨⟨hqa, hqb⟩, hT⟩ | ⟨hout2, hT⟩
    · exfalso
      simp only at hq1 hq2
      subst hq1 hq2
      rcases hout with ⟨ho1, ho2⟩ | ⟨ho1, ho2⟩ <;> simp only at ho1 ho2 <;>
        subst ho1 ho2 <;> simp [testReject, FP.gt] at h
    · exfalso
      simp only at hqa hqb
      rcases hfin with ⟨lo, hi, hf1, hf2⟩ | ⟨lo, hi, hf1, hf2⟩ <;> simp only at hf1 hf2
      · rcases hout with ⟨ho1, ho2⟩ | ⟨ho1, ho2⟩ <;> simp only at ho1 ho2 <;>
          rw [ho1] at hf1 <;> exact absurd hf1 (by simp)
      · rcases hqa with hqa | hqa <;> rw [hqa] at hf1 <;> exact absurd hf1 (by simp)
    · exfalso
      rcases hfin with ⟨lo, hi, hf1, hf2⟩ | ⟨lo, hi, hf1, hf2⟩ <;> simp only at hf1 hf2
      · rcases hout with ⟨ho1, ho2⟩ | ⟨ho1, ho2⟩ <;> simp only at ho1 ho2 <;>
          rw [ho1] at hf1 <;> exact absurd hf1 (by simp)
      · rcases hout2 with ⟨ho1, ho2⟩ | ⟨ho1, ho2⟩ <;> simp only at ho1 ho2 <;>
          rw [ho1] at hf1 <;> exact absurd hf1 (by simp)

/-- A finite represented pair is an interval representation. -/
theorem repW_finpair (p1 p2 : FP) (S : Set ℚ) (hp : RepW (p1, p2) S)
    (hfin : FinPair (p1, p2)) :
    ∃ lo hi : ℚ, lo ≤ hi ∧ p1 = FP.fin lo ∧ p2 = FP.fin hi ∧ S = Set.Icc lo hi := by
  rcases hp with ⟨lo, hi, hle, h1, h2, hS⟩ | ⟨⟨hpa, hpb⟩, hS⟩ | ⟨hout, hS⟩
  · simp only at h1 h2
    exact ⟨lo, hi, hle, h1, h2, hS⟩
  · exfalso
    rcases hfin with ⟨lo, hi, hf1, hf2⟩
    simp only at hf1 hf2 hpa hpb
    rcases hpa with hpa | hpa <;> rw [hpa] at hf1 <;> exact absurd hf1 (by simp)
  · exfalso
    rcases hfin with ⟨lo, hi, hf1, hf2⟩
    simp only at hf1 hf2
    rcases hout with ⟨ho1, ho2⟩ | ⟨ho1, ho2⟩ <;> simp only at ho1 ho2 <;>
      rw [ho1] at hf1 <;> exact absurd hf1 (by simp)

/-- A nonzero direction component produces a finite slab pair. -/
theorem slabAxis_finpair (d o mn mx : ℚ) (hd : d ≠ 0) :
    FinPair (slabAxis d o mn mx) := by
  unfold slabAxis invdir
  simp only [hd, if_false, ite_false]
  by_cases h : (FP.fin d⁻¹).ge0 = true
  · simp only [h, if_true, ite_true]
    exact ⟨(mn - o) * d⁻¹, (mx - o) * d⁻¹, rfl, rfl⟩
  · simp only [h, if_false, Bool.false_eq_true, ite_false]
    exact ⟨(mx - o) * d⁻¹, (mn - o) * d⁻¹, rfl, rfl⟩

/-- C7 (amended): for every ray with a zero direction component and at
least one nonzero component, and every AABB satisfying the `min <= max`
invariant, `intersectAABB` completes (the IEEE special-value algebra is
total), treats a NaN `tmin`/`tmax` as not-yet-constraining (it is always
overwritten by the other axis's value in the folds), and its hit/miss
answer agrees exactly with the geometric predicate "some point of the ray
lies in the box". -/
theorem C7_zero_component_slab_correct (r : Ray ℚ) (box : AABBQ)
    (hbx : box.min.x ≤ box.max.x) (hby : box.min.y ≤ box.max.y)
    (hbz : box.min.z ≤ box.max.z)
    (hzero : r.direction.x = 0 ∨ r.direction.y = 0 ∨ r.direction.z = 0)
    (hnz : ¬(r.direction.x = 0 ∧ r.direction.y = 0 ∧ r.direction.z = 0)) :
    (∀ v : FP, foldMin FP.nan v = v ∧ foldMax FP.nan v = v) ∧
    (intersectAABB r box ≠ none ↔ hitsAABB r box) := by
  refine ⟨fun v => ⟨by simp [foldMin, FP.isNan], by simp [foldMax, FP.isNan]⟩, ?_⟩
  have hx := slabAxis_rep r.direction.x r.origin.x box.min.x box.max.x hbx
  have hy := slabAxis_rep r.direction.y r.origin.y box.min.y box.max.y hby
  have hz := slabAxis_rep r.direction.z r.origin.z box.min.z box.max.z hbz
  obtain ⟨x1, x2, hxe⟩ : ∃ a b, slabAxis r.direction.x r.origin.x box.min.x box.max.x = (a, b) :=
    ⟨_, _, rfl⟩
  obtain ⟨y1, y2, hye⟩ : ∃ a b, slabAxis r.direction.y r.origin.y box.min.y box.max.y = (a, b) :=
    ⟨_, _, rfl⟩
  obtain ⟨z1, z2, hze⟩ : ∃ a b, slabAxis r.direction.z r.origin.z box.min.z box.max.z = (a, b) :=
    ⟨_, _, rfl⟩
  rw [hxe] at hx
  rw [hye] at hy
  rw [hze] at hz
  have hits_iff : hitsAABB r box ↔ ∃ t : ℚ, 0 ≤ t ∧
      (t ∈ axSet r.direction.x r.origin.x box.min.x box.max.x ∧
       t ∈ axSet r.direction.y r.origin.y box.min.y box.max.y ∧
       t ∈ axSet r.direction.z r.origin.z box.min.z box.max.z) := by
    unfold hitsAABB inAABB axSet Ray.at Vec3.smul Vec3.add
    simp only [Set.mem_setOf_eq]
    constructor <;> rintro ⟨t, ht, h⟩ <;> exact ⟨t, ht, by tauto⟩
  rw [hits_iff]
  simp only [intersectAABB, hxe, hye, hze]
  cases h1 : testReject (x1, x2) (y1, y2) with
  | true =>
    have hdisj := step_reject x1 x2 y1 y2 _ _ hx hy h1
    simp only [h1, if_true, ite_true, ne_eq, not_true_eq_false, false_iff, not_exists]
    intro t ⟨ht, htx, hty, htz⟩
    have : t ∈ axSet r.direction.x r.origin.x box.min.x box.max.x ∩
        axSet r.direction.y r.origin.y box.min.y box.max.y := ⟨htx, hty⟩
    rw [hdisj] at this
    exact this
  | false =>
    have h12 := step_fold x1 x2 y1 y2 _ _ hx hy h1
    simp only [h1, Bool.false_eq_true, if_false, ite_false]
    cases h2 : testReject (foldMin x1 y1, foldMax x2 y2) (z1, z2) with
    | true =>
      have hdisj := step_reject _ _ z1 z2 _ _ h12 hz h2
      simp only [h2, if_true, ite_true, ne_eq, not_true_eq_false, false_iff, not_exists]
      intro t ⟨ht, htx, hty, htz⟩
      have : t ∈ (axSet r.direction.x r.origin.x box.min.x box.max.x ∩
          axSet r.direction.y r.origin.y box.min.y box.max.y) ∩
          axSet r.direction.z r.origin.z box.min.z box.max.z := ⟨⟨htx, hty⟩, htz⟩
      rw [hdisj] at this
      exact this
    | false =>
      simp only [Bool.false_eq_true, if_false, ite_false]
      have hfin3 := step_fold _ _ z1 z2 _ _ h12 hz h2
      have hnzd : r.direction.x ≠ 0 ∨ r.direction.y ≠ 0 ∨ r.direction.z ≠ 0 := by
        tauto
      have hfinp : FinPair (foldMin (foldMin x1 y1) z1, foldMax (foldMax x2 y2) z2) := by
        rcases hnzd with hd | hd | hd
        · have hfx : FinPair (x1, x2) := by
            have := slabAxis_finpair r.direction.x r.origin.x box.min.x box.max.x hd
            rwa [hxe] at this
          exact step_fold_finpair _ _ z1 z2 _ _ h12 hz h2
            (Or.inl (step_fold_finpair x1 x2 y1 y2 _ _ hx hy h1 (Or.inl hfx)))
        · have hfy : FinPair (y1, y2) := by
            have := slabAxis_finpair r.direction.y r.origin.y box.min.y box.max.y hd
            rwa [hye] at this
          exact step_fold_finpair _ _ z1 z2 _ _ h12 hz h2
            (Or.inl (step_fold_finpair x1 x2 y1 y2 _ _ hx hy h1 (Or.inr hfy)))
        · have hfz : FinPair (z1, z2) := by
            have := slabAxis_finpair r.direction.z r.origin.z box.min.z box.max.z hd
            rwa [hze] at this
          exact step_fold_finpair _ _ z1 z2 _ _ h12 hz h2 (Or.inr hfz)
      obtain ⟨lo, hi, hle, hfl, hfh, hSet⟩ := repW_finpair _ _ _ hfin3 hfinp
      rw [hfl, hfh]
      by_cases hhi : hi < 0
      · have hlt : FP.lt (FP.fin hi) (FP.fin 0) = true := by
          simp [FP.lt, FP.gt, hhi]
        simp only [hlt, if_true, ite_true, ne_eq, not_true_eq_false, false_iff, not_exists]
        rintro t ⟨ht, htx, hty, htz⟩
        have hmem : t ∈ (axSet r.direction.x r.origin.x box.min.x box.max.x ∩
            axSet r.direction.y r.origin.y box.min.y box.max.y) ∩
            axSet r.direction.z r.origin.z box.min.z box.max.z := ⟨⟨htx, hty⟩, htz⟩
        rw [hSet] at hmem
        have := hmem.2
        linarith
      · have hlt : FP.lt (FP.fin hi) (FP.fin 0) = false := by
          simp [FP.lt, FP.gt, hhi]
        simp only [hlt, Bool.false_eq_true, if_false, ite_false, ne_eq, Option.some_ne_none,
          not_false_eq_true, true_iff]
        refine ⟨max lo 0, le_max_right lo 0, ?_⟩
        have hmem : max lo 0 ∈ (axSet r.direction.x r.origin.x box.min.x box.max.x ∩
            axSet r.direction.y r.origin.y box.min.y box.max.y) ∩
            axSet r.direction.z r.origin.z box.min.z box.max.z := by
          rw [hSet]
          exact ⟨le_max_left lo 0, max_le hle (not_lt.mp hhi)⟩
        exact ⟨hmem.1.1, hmem.1.2, hmem.2⟩

/-- Counterexample to C7 as stated: the all-zero direction `(0,0,0)` has a
zero component, and for an origin left of the box every slab degenerates to
`[+inf,+inf]` or `[-inf,+inf]`, so the folds keep `tmax = +inf`, the code
accepts and returns an all-NaN point even though the ray (a stationary
point) never touches the box — a spurious accept. -/
theorem C7_zero_direction_counterexample :
    (c7ray.direction.x = 0 ∨ c7ray.direction.y = 0 ∨ c7ray.direction.z = 0) ∧
    intersectAABB c7ray c7box = some ⟨FP.nan, FP.nan, FP.nan⟩ ∧
    ¬hitsAABB c7ray c7box := by
  refine ⟨Or.inl rfl, ?_, ?_⟩
  · norm_num [intersectAABB, slabAxis, invdir, FP.mulQ, FP.ge0, FP.gt, FP.lt, FP.isNan,
      testReject, foldMin, foldMax, atFP, FP.addQ, c7ray, c7box]
  · rintro ⟨t, ht, hin⟩
    have h1 := hin.1
    simp [Ray.at, Vec3.smul, Vec3.add, c7ray, c7box] at h1
    linarith

/-- Witness for the amended C7 at the spec's end-to-end box example, whose
ray direction `(0,0,1)` has two zero components. -/
theorem C7_zero_component_slab_correct_witness :
    (w3box.min.x ≤ w3box.max.x ∧ w3box.min.y ≤ w3box.max.y ∧ w3box.min.z ≤ w3box.max.z ∧
      (w3ray.direction.x = 0 ∨ w3ray.direction.y = 0 ∨ w3ray.direction.z = 0) ∧
      ¬(w3ray.direction.x = 0 ∧ w3ray.direction.y = 0 ∧ w3ray.direction.z = 0)) ∧
    ((∀ v : FP, foldMin FP.nan v = v ∧ foldMax FP.nan v = v) ∧
      (intersectAABB w3ray w3box ≠ none ↔ hitsAABB w3ray w3box)) :=
  ⟨⟨by norm_num [w3box], by norm_num [w3box], by norm_num [w3box],
    Or.inl (by norm_num [w3ray]), by norm_num [w3ray]⟩,
   C7_zero_component_slab_correct w3ray w3box (by norm_num [w3box]) (by norm_num [w3box]) (by norm_num [w3box])
     (Or.inl (by norm_num [w3ray])) (by norm_num [w3ray])⟩
